import Mathlib

/-!
# Verification of the openclean grouping / conflict-summary / pipeline core

A shallow embedding of the parts of `openclean` that the verified properties
talk about:

* `openclean/data/groupby.py` — `DataFrameGrouping`, `DataFrameViolation`,
  `ValueConflicts`, `ConflictSummary`;
* `openclean/operator/map/groupby.py` — the `groupby` operator, `GroupBy.map`,
  `GroupBy._transform`, `GroupBy.select`;
* `openclean/pipeline.py` — the immutable `DataPipeline` builder;
* `openclean/operator/transform/mapping.py` — the `Mapping` transformer.

Modelling conventions:

* Python dicts (`collections.Counter`, the `_groups` and `_meta` dicts, the
  `ConflictSummary` defaultdict) are insertion-ordered association lists;
* a raised Python exception is an `Except PyError` result; methods that mutate
  `self` before possibly raising return the post-state together with the
  optional error;
* `pandas` cell values are `Scalar`s; a computed key or function result is a
  `Value` (a scalar or a tuple — the source converts list-valued keys to
  tuples);
* row-label indexes are modelled as integers, the only case the verified
  claims need; for integer labels the pandas test `df.index.dtype != int`
  used in `GroupBy.map` is always false, so the reset condition reduces to
  `df.index.duplicated().any()`.
-/

namespace OpenClean

/-- A pandas cell value (the scalars that appear in the data frames). -/
inductive Scalar where
  | int (i : Int)
  | str (s : String)
deriving DecidableEq, Repr

instance : Inhabited Scalar := ⟨Scalar.int 0⟩

/-- A computed value: a scalar or a Python tuple of scalars (the `GroupBy`
operator turns list-valued evaluation results into tuples, and multi-column
projections produce tuples). -/
inductive Value where
  | scalar (s : Scalar)
  | tuple (vs : List Scalar)
deriving DecidableEq, Repr

/-- The Python exception classes raised by the modelled code. -/
inductive PyError where
  | valueError (msg : String)
  | typeError (msg : String)
  | indexError (msg : String)
  | attributeError (msg : String)
  | nameError (msg : String)
deriving DecidableEq, Repr

deriving instance DecidableEq for Except

/-- Boolean check that an `Except` computation succeeded. -/
def isOkB {ε α : Type} : Except ε α → Bool
  | .ok _ => true
  | .error _ => false

/-- Boolean check that an `Except` computation succeeded with a `some`. -/
def isOkSomeB {ε α : Type} : Except ε (Option α) → Bool
  | .ok (some _) => true
  | _ => false

/-- An insertion-ordered `collections.Counter`: keys paired with counts. -/
abbrev Counter (α : Type) := List (α × Nat)

/-- Update the value stored at key `k` of an insertion-ordered dict in place
(the position of the entry is preserved, as for Python dict mutation). -/
def assocUpdate {α β : Type} [DecidableEq α] (m : List (α × β)) (k : α)
    (f : β → β) : List (α × β) :=
  m.map (fun kv => if kv.1 = k then (kv.1, f kv.2) else kv)

/-- Python dict assignment `m[k] = v`: overwrite in place if the key exists,
otherwise append a new entry. -/
def assocSet {α β : Type} [DecidableEq α] (m : List (α × β)) (k : α) (v : β) :
    List (α × β) :=
  if (m.lookup k).isSome then assocUpdate m k (fun _ => v) else m ++ [(k, v)]

/-- `collections.Counter` increment `c[k] += 1`: a missing key counts as 0 and
the new entry is appended at the end. -/
def Counter.incr {α : Type} [DecidableEq α] (c : Counter α) (k : α) : Counter α :=
  if (c.lookup k).isSome then assocUpdate c k (· + 1) else c ++ [(k, 1)]

/-- Count stored for `k` (`0` when absent, as for `collections.Counter`). -/
def Counter.countOf {α : Type} [DecidableEq α] (c : Counter α) (k : α) : Nat :=
  match c.lookup k with
  | some n => n
  | none => 0

/-- Resolve a Python sequence index of a sequence of length `n`: negative
indices wrap around once; anything out of range is an `IndexError`. -/
def pyIdx (n : Nat) (i : Int) : Option Nat :=
  let j : Int := if i < 0 then (n : Int) + i else i
  if 0 ≤ j ∧ j < (n : Int) then some j.toNat else none

/-- Python sequence read `l[i]` (also models positional `df.iloc[i]`). -/
def pyGet {α : Type} (l : List α) (i : Int) : Except PyError α :=
  match pyIdx l.length i with
  | some j =>
    match l[j]? with
    | some a => .ok a
    | none => .error (.indexError "list index out of range")
  | none => .error (.indexError "list index out of range")

/-- Python list assignment `l[i] = a`. -/
def pySet {α : Type} (l : List α) (i : Int) (a : α) : Except PyError (List α) :=
  match pyIdx l.length i with
  | some j => .ok (l.set j a)
  | none => .error (.indexError "list assignment index out of range")

/-- A pandas data frame: a schema, the row-label index and the row values.
Row labels are restricted to integers (see the module comment). -/
structure DataFrame where
  columns : List String
  index : List Int
  rows : List (List Scalar)
deriving DecidableEq, Repr

/-- `df.shape[0]`. -/
def DataFrame.nrows (df : DataFrame) : Nat := df.rows.length

/-- Boolean-mask selection `df[predicate]`: keep the rows (and their index
labels) at the positions where the mask is `True`. -/
def DataFrame.filterByMask (df : DataFrame) (mask : List Bool) : DataFrame where
  columns := df.columns
  index := ((df.index.zip mask).filter (fun p => p.2)).map (fun p => p.1)
  rows := ((df.rows.zip mask).filter (fun p => p.2)).map (fun p => p.1)

/-- `df.reset_index()` as used by `GroupBy.map`: the old index becomes a new
first column named `index` and the index is replaced by `0..n-1`. -/
def DataFrame.reset_index (df : DataFrame) : DataFrame where
  columns := "index" :: df.columns
  index := (List.range df.rows.length).map Int.ofNat
  rows := (df.index.zip df.rows).map (fun p => Scalar.int p.1 :: p.2)

/-- `pd.Index.duplicated().any()`. -/
def indexHasDup (l : List Int) : Bool := decide (¬ l.Nodup)

/-- A reference to a data frame column, by name or by position. -/
inductive ColRef where
  | name (s : String)
  | pos (i : Nat)
deriving DecidableEq, Repr

/-- Modelled from the spec: `select_clause` (from `openclean.data.schema`,
also re-exported by `openclean.data.column`; the module is not among the
provided sources) resolves a list of column references — names or index
positions — against a schema into positional indices.  Following the spec's
error taxonomy, a reference to an unknown column name or an out-of-range
position is a binding error "raised before any row is evaluated". -/
def select_clause (schema : List String) (columns : List ColRef) :
    Except PyError (List Nat) :=
  columns.mapM fun c =>
    match c with
    | .name s =>
      match schema.indexOf? s with
      | some i => .ok i
      | none => .error (.valueError ("unknown column " ++ s))
    | .pos i =>
      if i < schema.length then .ok i
      else .error (.valueError "column index out of range")

/-! ## `openclean/data/groupby.py`: `DataFrameGrouping` -/

/-- A data frame grouping: the grouped data frame together with the
insertion-ordered dict `_groups` mapping key values to lists of row
positions. -/
structure DataFrameGrouping where
  df : DataFrame
  groups : List (Value × List Int)
deriving DecidableEq, Repr

namespace DataFrameGrouping

/-- `__len__`: the number of groups. -/
def numGroups (g : DataFrameGrouping) : Nat := g.groups.length

/-- `columns`: the schema of the grouped data frame. -/
def columns (g : DataFrameGrouping) : List String := g.df.columns

/-- The group keys in `_groups` insertion order.  (`keys()` in the source
returns a Python `set` over exactly these keys; set iteration order is
unspecified, and every property proved below about iteration over the keys
is insertion-order independent.) -/
def keys (g : DataFrameGrouping) : List Value := g.groups.map (fun kv => kv.1)

/-- `add(key, rows)`: raises `ValueError` on a duplicate key (before any
mutation), otherwise stores the row list for the key.  Returns the post-state
together with the raised error, if any. -/
def add (g : DataFrameGrouping) (key : Value) (rows : List Int) :
    DataFrameGrouping × Option PyError :=
  if (g.groups.lookup key).isSome then
    (g, some (.valueError "duplicate key"))
  else
    ({ g with groups := g.groups ++ [(key, rows)] }, none)

/-- `get(key)`: `None` if the key is absent; otherwise build a boolean mask of
length `df.shape[0]`, set it to `True` at every stored row index (Python list
assignment — an out-of-range index raises `IndexError`), and select
`df[predicate]`. -/
def get (g : DataFrameGrouping) (key : Value) :
    Except PyError (Option DataFrame) :=
  match g.groups.lookup key with
  | none => .ok none
  | some rs => do
    let pred ← rs.foldlM (fun p i => pySet p i true)
      (List.replicate g.df.nrows false)
    .ok (some (g.df.filterByMask pred))

/-- `rows(key)`: the stored row-index list, `None` if the key is absent. -/
def rowsOf (g : DataFrameGrouping) (key : Value) : Option (List Int) :=
  g.groups.lookup key

/-- The value projected for one row in the single-column branch of `values`:
`self.df.iloc[rowidx][cidx]`. -/
def projectSingle (df : DataFrame) (cidx : Nat) (rowidx : Int) :
    Except PyError Value := do
  let row ← pyGet df.rows rowidx
  let cell ← pyGet row (cidx : Int)
  .ok (Value.scalar cell)

/-- The value projected for one row in the multi-column branch of `values`:
`tuple([row[cidx] for cidx in colidx])`. -/
def projectTuple (df : DataFrame) (colidx : List Nat) (rowidx : Int) :
    Except PyError Value := do
  let row ← pyGet df.rows rowidx
  let cells ← colidx.mapM (fun cidx : Nat => pyGet row (cidx : Int))
  .ok (Value.tuple cells)

/-- The counting loop shared by both branches of `values`
(`result[...] += 1` over the group's row indices); the source writes the two
loops out separately, differing only in the projected value. -/
def countValues (proj : Int → Except PyError Value) (rs : List Int) :
    Except PyError (Counter Value) :=
  rs.foldlM (fun (result : Counter Value) rowidx => do
    let v ← proj rowidx
    .ok (result.incr v)) []

/-- `values(key, columns)`: resolve the column references first (raising on a
binding error), return `None` for an absent key, otherwise count the
projected (scalar or tuple) values of the group's rows. -/
def values (g : DataFrameGrouping) (key : Value) (columns : List ColRef) :
    Except PyError (Option (Counter Value)) := do
  let colidx ← select_clause g.df.columns columns
  match g.groups.lookup key with
  | none => .ok none
  | some rs =>
    match colidx with
    | [cidx] => do
      let cnt ← countValues (projectSingle g.df cidx) rs
      .ok (some cnt)
    | _ => do
      let cnt ← countValues (projectTuple g.df colidx) rs
      .ok (some cnt)

/-- A structurally sound grouping: distinct keys, an index aligned with the
rows, and for every group a duplicate-free list of valid row positions.
(`GroupBy.map` produces such groupings when the frame's labels coincide with
its positions; C1 records the general failure.) -/
def WellFormed (g : DataFrameGrouping) : Prop :=
  (g.groups.map (fun kv => kv.1)).Nodup ∧
  g.df.index.length = g.df.nrows ∧
  ∀ kv ∈ g.groups, kv.2.Nodup ∧ ∀ i ∈ kv.2, 0 ≤ i ∧ i.toNat < g.df.nrows

instance (g : DataFrameGrouping) : Decidable g.WellFormed := by
  unfold WellFormed
  infer_instance

/-- Observer: evaluate a boolean test on the materialized group of a key
(`false` when the key is absent or materialization raises). -/
def onGroup (g : DataFrameGrouping) (key : Value) (p : DataFrame → Bool) :
    Bool :=
  match g.get key with
  | .ok (some gdf) => p gdf
  | _ => false

end DataFrameGrouping

/-! ## `openclean/operator/map/groupby.py`: the `GroupBy` operator

The prepared evaluation function built by `get_eval_func` (from the
`openclean.function.eval` framework) is modelled as a pure function from a
row to the computed key; the source's conversion of list-valued results to
tuples is reflected in the `Value.tuple` constructor. -/

namespace GroupBy

/-- `GroupBy._transform`: evaluate the key function once per row of
`df.iterrows()` (which yields index **labels**, not positions) and append the
label to the key's bucket, creating the bucket on first use. -/
def transform (df : DataFrame) (f : List Scalar → Value) :
    List (Value × List Int) :=
  (df.index.zip df.rows).foldl (fun groups p =>
    let value := f p.2
    if (groups.lookup value).isSome then
      assocUpdate groups value (fun rs => rs ++ [p.1])
    else
      groups ++ [(value, [p.1])]) []

/-- `GroupBy.map`: reset the index when it has duplicate labels (for the
integer labels of this model the source's second disjunct
`df.index.dtype != int` is always false), run `_transform`, and `add` every
bucket to a fresh grouping over the (possibly reindexed) frame. -/
def mapGroups (df : DataFrame) (f : List Scalar → Value) :
    Except PyError DataFrameGrouping :=
  let df_reindexed := if indexHasDup df.index then df.reset_index else df
  let groupedby := transform df_reindexed f
  groupedby.foldlM (fun g kv =>
    match g.add kv.1 kv.2 with
    | (g', none) => .ok g'
    | (_, some e) => .error e)
    ⟨df_reindexed, []⟩

/-- The `having` argument of `groupby`: `None`, an `int`, a callable, or any
other value (e.g. a string).  A callable is modelled as a pure function whose
result is `some b` when it returns the Python boolean `b` and `none` when it
returns a non-boolean.  (A Python `bool` passed as `having` would take the
`int` branch, since `bool` subclasses `int`; that case is outside this
model.) -/
inductive Having where
  | none
  | int (n : Int)
  | callable (f : DataFrame → Option Bool)
  | other

/-- `GroupBy.select(group, condition)`: `True` for `None`; row-count equality
for an `int`; for a callable, a `TypeError` if it returns a non-boolean and
its result otherwise; `False` for anything else. -/
def select (group : DataFrame) (condition : Having) : Except PyError Bool :=
  match condition with
  | .none => .ok true
  | .int n => .ok (decide ((group.nrows : Int) = n))
  | .callable f =>
    match f group with
    | some b => .ok b
    | none => .error (.typeError "selection condition expected to return a boolean")
  | .other => .ok false

end GroupBy

/-- One iteration of the `having` selection loop of `groupby`: materialize
the group (`all_groups.groups()` yields `(key, self.get(key))`), test it with
`GroupBy.select`, and when selected `add` it — with the materialized group's
index labels as rows — to the accumulating grouping. -/
def groupbySelectStep (all_groups : DataFrameGrouping)
    (having : GroupBy.Having) (selected : DataFrameGrouping)
    (kv : Value × List Int) : Except PyError DataFrameGrouping := do
  let group? ← all_groups.get kv.1
  match group? with
  | none => .error (.attributeError "NoneType object has no attribute shape")
  | some group => do
    let keep ← GroupBy.select group having
    if keep then
      match selected.add kv.1 group.index with
      | (s', none) => .ok s'
      | (_, some e) => .error e
    else
      .ok selected

/-- The `groupby` function: build the full grouping with `GroupBy.map`; when
`having` is not `None`, run the selection loop over all groups, accumulating
into a fresh grouping over the **original** frame. -/
def groupby (df : DataFrame) (f : List Scalar → Value)
    (having : GroupBy.Having) : Except PyError DataFrameGrouping := do
  let all_groups ← GroupBy.mapGroups df f
  match having with
  | .none => .ok all_groups
  | _ =>
    all_groups.groups.foldlM (groupbySelectStep all_groups having) ⟨df, []⟩

/-- Observer for the selection loop: the entry the loop appends for one group
of the full grouping (`none` when the group is dropped or its processing
raises). -/
def keptEntry (all_groups : DataFrameGrouping) (having : GroupBy.Having)
    (kv : Value × List Int) : Option (Value × List Int) :=
  match all_groups.get kv.1 with
  | .ok (some gdf) =>
    match GroupBy.select gdf having with
    | .ok true => some (kv.1, gdf.index)
    | _ => none
  | _ => none

/-! ## `openclean/data/groupby.py`: violation groups and conflict summaries -/

/-- `ValueConflicts`: number of groups a value occurs in as a conflicting
value, and the counter of values it co-occurs with. -/
structure ValueConflicts where
  count : Nat := 0
  values : Counter Value := []
deriving DecidableEq, Repr

instance : Inhabited ValueConflicts := ⟨{}⟩

/-- `ConflictSummary`: a `defaultdict(ValueConflicts)` from values to their
conflict information, insertion-ordered. -/
abbrev ConflictSummary := List (Value × ValueConflicts)

namespace ConflictSummary

/-- `defaultdict` subscripting `summary[v]`: return the stored entry, or
create, store (at the end) and return a fresh default `ValueConflicts`.
Returns the post-state of the summary together with the entry. -/
def getDefault (s : ConflictSummary) (v : Value) :
    ConflictSummary × ValueConflicts :=
  match s.lookup v with
  | some vc => (s, vc)
  | none => (s ++ [(v, {})], {})

/-- One iteration of the loop body of `ConflictSummary.add`:
`value_conflicts = self[val]; value_conflicts.count += 1;` then every other
value of the conflict list increments the stored partner counter.  The
mutations act on the stored entry. -/
def addVal (s : ConflictSummary) (val : Value) (values : List Value) :
    ConflictSummary :=
  let s1 := (s.getDefault val).1
  assocUpdate s1 val (fun vc =>
    { count := vc.count + 1
      values := (values.filter (fun c => c ≠ val)).foldl
        (fun cnt c => cnt.incr c) vc.values })

/-- `ConflictSummary.add(values)`: run the loop body for every value of the
conflict list. -/
def add (s : ConflictSummary) (values : List Value) : ConflictSummary :=
  values.foldl (fun s val => s.addVal val values) s

/-- The number of groups the value `x` was recorded as conflicting in
(`self[x].count`, read without the defaultdict side effect; 0 when absent). -/
def countOf (s : ConflictSummary) (x : Value) : Nat :=
  match s.lookup x with
  | some vc => vc.count
  | none => 0

/-- The number of shared conflict groups recorded for the pair `(x, y)`
(`self[x].values[y]`, read without side effects; 0 when absent). -/
def partnerCount (s : ConflictSummary) (x y : Value) : Nat :=
  match s.lookup x with
  | some vc => vc.values.countOf y
  | none => 0

/-- `most_common(n)`: `Counter({key: val.count ...}).most_common(n)`, i.e.
the key/count pairs in summary order, stably sorted by descending count,
truncated to the first `n`.  (`heapq.nlargest` as used by
`collections.Counter` is documented and implemented to be equivalent to
`sorted(..., reverse=True)[:n]`, a stable descending sort.) -/
def most_common (s : ConflictSummary) (n : Nat) : List (Value × Nat) :=
  ((s.map (fun kv => (kv.1, kv.2.count))).mergeSort
    (fun a b => b.2 ≤ a.2)).take n

end ConflictSummary

/-- `DataFrameViolation`: a grouping that additionally keeps the per-key
meta counters dict `_meta` (an entry may itself be `None`, the default of the
`meta` argument of `add`). -/
structure DataFrameViolation extends DataFrameGrouping where
  meta : List (Value × Option (Counter Value))
deriving DecidableEq, Repr

namespace DataFrameViolation

/-- `get_meta(key)`: `None` when the key is absent, otherwise the stored
meta counter (itself possibly `None`; the model flattens the two `None`s the
way the Python caller observes them). -/
def get_meta (v : DataFrameViolation) (key : Value) : Option (Counter Value) :=
  match v.meta.lookup key with
  | none => none
  | some m => m

/-- `DataFrameViolation.add`: stores `self._meta[key] = meta`
**unconditionally first**, then delegates to `DataFrameGrouping.add`, which
raises on a duplicate key — after the meta entry has already been
overwritten.  Returns the post-state together with the error, if any. -/
def add (v : DataFrameViolation) (key : Value) (rows : List Int)
    (meta : Option (Counter Value)) : DataFrameViolation × Option PyError :=
  let meta' := assocSet v.meta key meta
  let (g', err) := v.toDataFrameGrouping.add key rows
  ({ toDataFrameGrouping := g', meta := meta' }, err)

/-- `conflicts(key, columns)`: synonym for `values`. -/
def conflicts (v : DataFrameViolation) (key : Value) (columns : List ColRef) :
    Except PyError (Option (Counter Value)) :=
  v.toDataFrameGrouping.values key columns

/-- One iteration of the loop of `summarize_conflicts`: take the distinct
conflict values of the key's group (`list(counter.keys())`); when more than
one distinct value occurs, record the conflict list in the summary. -/
def summarizeStep (v : DataFrameViolation) (columns : List ColRef)
    (summary : ConflictSummary) (key : Value) :
    Except PyError ConflictSummary := do
  let cnt? ← v.conflicts key columns
  match cnt? with
  | none => .error (.attributeError "NoneType object has no attribute keys")
  | some cnt =>
    let conflictValues := cnt.map (fun kv => kv.1)
    if 1 < conflictValues.length then .ok (summary.add conflictValues)
    else .ok summary

/-- `summarize_conflicts(columns)`: run the summarizing loop over the
grouping's keys (see `DataFrameGrouping.keys` on set iteration order). -/
def summarize_conflicts (v : DataFrameViolation) (columns : List ColRef) :
    Except PyError ConflictSummary :=
  v.toDataFrameGrouping.keys.foldlM (summarizeStep v columns) []

/-- Observer: the distinct conflict values of one group — the keys of the
counter `conflicts(key, columns)` returns — or `[]` when the key is absent or
an error is raised. -/
def conflictList (v : DataFrameViolation) (columns : List ColRef)
    (key : Value) : List Value :=
  match v.conflicts key columns with
  | .ok (some cnt) => cnt.map (fun kv => kv.1)
  | _ => []

end DataFrameViolation

/-! ## `openclean/pipeline.py`: the immutable `DataPipeline` builder

Only the identity and order of the appended stream operators matter to the
verified claims, so predicates, insert values, update functions and datatype
converters are an abstract payload type `P`, and the reader an abstract
`R`. -/

/-- A stream operator as appended by the `DataPipeline` methods, carrying the
constructor arguments the source passes. -/
inductive StreamOp (P : Type) where
  | select (columns : List ColRef)
  | rename (columns : List ColRef) (names : List String)
  | filter (predicate : P) (negated : Bool)
  | limit (rows : Nat)
  | inscol (names : List String) (pos : Option Nat) (values : Option P)
  | update (columns : List P) (func : P)
  | typecast (converter : Option P)
deriving DecidableEq, Repr

/-- `DataPipeline`: a dataset reader plus the ordered operator list.  (The
`columns` constructor argument of the source is accepted but never stored.) -/
structure DataPipeline (R P : Type) where
  reader : R
  pipeline : List (StreamOp P)
deriving DecidableEq, Repr

namespace DataPipeline

variable {R P : Type}

/-- `append(op)`: a **new** pipeline value over the same reader whose operator
list is `self.pipeline + [op]` (list concatenation, not mutation). -/
def append (p : DataPipeline R P) (op : StreamOp P) : DataPipeline R P :=
  { p with pipeline := p.pipeline ++ [op] }

/-- `limit(count)`: append a `Limit` operator. -/
def limit (p : DataPipeline R P) (count : Nat) : DataPipeline R P :=
  p.append (.limit count)

/-- `select(columns, names)`: with `columns=None` the source reads the
nonexistent attribute `self.columns` (never set by `__init__`), an
`AttributeError`; otherwise append a `Select` operator and, when `names` is
given, additionally a `Rename` operator over positions `0..len(columns)-1`. -/
def select (p : DataPipeline R P) (columns : Option (List ColRef))
    (names : Option (List String)) : Except PyError (DataPipeline R P) :=
  match columns with
  | none => .error (.attributeError "DataPipeline object has no attribute columns")
  | some cols =>
    let ds := p.append (.select cols)
    match names with
    | none => .ok ds
    | some ns =>
      .ok (ds.append (.rename ((List.range cols.length).map ColRef.pos) ns))

/-- `filter(predicate, limit)`: append a `Filter` operator and, when a limit
is given, a `Limit` operator as well. -/
def filter (p : DataPipeline R P) (predicate : P) (lim : Option Nat) :
    DataPipeline R P :=
  let ds := p.append (.filter predicate false)
  match lim with
  | none => ds
  | some c => ds.limit c

/-- `insert(names, pos, values)`: append an `InsCol` operator. -/
def insert (p : DataPipeline R P) (names : List String) (pos : Option Nat)
    (values : Option P) : DataPipeline R P :=
  p.append (.inscol names pos values)

/-- `update(*args)`: `ValueError` when no argument is given, otherwise append
an `Update` operator over `args[:-1]` and `args[-1]`. -/
def update (p : DataPipeline R P) (args : List P) :
    Except PyError (DataPipeline R P) :=
  match args.getLast? with
  | none => .error (.valueError "not enough arguments for update")
  | some f => .ok (p.append (.update args.dropLast f))

/-- `typecast(converter)`: append a `Typecast` operator. -/
def typecast (p : DataPipeline R P) (converter : Option P) :
    DataPipeline R P :=
  p.append (.typecast converter)

end DataPipeline

/-! ## `openclean/operator/transform/mapping.py`: the `Mapping` transformer

The prepared update function (`get_update_function` lives in
`openclean.operator.transform.update`, not among the provided sources) is
modelled as a pure function from a row to its (scalar or tuple) result. -/

namespace Mapping

/-- The dict built by the two row loops of `Mapping.transform`: for a single
source column the key is the row's cell in that column, otherwise the tuple
of cells; later rows overwrite the stored value of an existing key in
place. -/
def buildMapping (df : DataFrame) (colidxs : List Nat)
    (f : List Scalar → Value) : Except PyError (List (Value × Value)) :=
  match colidxs with
  | [colidx] =>
    df.rows.foldlM (fun m row => do
      let cell ← pyGet row (colidx : Int)
      .ok (assocSet m (Value.scalar cell) (f row))) []
  | _ =>
    df.rows.foldlM (fun m row => do
      let cells ← colidxs.mapM (fun c : Nat => pyGet row (c : Int))
      .ok (assocSet m (Value.tuple cells) (f row))) []

/-- The cells a `Value` contributes to a result row: `row = [key]` resp.
`row = list(key)` for the source part; `row.append(val)` resp.
`row.extend(list(val))` for the target part. -/
def valueCells : Value → List Scalar
  | .scalar s => [s]
  | .tuple vs => vs

/-- One result row of the mapping data frame: source cells then target
cells. -/
def encodeEntry (kv : Value × Value) : List Scalar :=
  valueCells kv.1 ++ valueCells kv.2

/-- Observer: the mapping key computed for one row — the row's cell in a
single source column, the tuple of cells otherwise. -/
def rowKey (colidxs : List Nat) (row : List Scalar) : Value :=
  match colidxs with
  | [colidx] => Value.scalar (row.getD colidx default)
  | _ => Value.tuple (colidxs.map (fun c => row.getD c default))

/-- `Mapping.transform`: resolve the source columns, build the mapping dict,
and materialize it as a data frame (default pandas index).  Column names:
the `names` argument if given; otherwise `source`/`target` names built from
`target_cols` — a variable assigned only inside the row loop, so an empty
mapping raises `NameError` here. -/
def transform (df : DataFrame) (columns : List ColRef)
    (names : Option (List String)) (f : List Scalar → Value) :
    Except PyError DataFrame := do
  let colidxs ← select_clause df.columns columns
  let mapping ← buildMapping df colidxs f
  let data := mapping.map encodeEntry
  let cols ← match names with
    | some ns => pure ns
    | none =>
      match data.getLast? with
      | none => .error (.nameError "name target_cols is not defined")
      | some lastRow =>
        let target_cols := lastRow.length - colidxs.length
        let sourceCols := if 1 < colidxs.length then
            (List.range colidxs.length).map (fun i => "source" ++ toString i)
          else ["source"]
        let targetCols := if 1 < target_cols then
            (List.range target_cols).map (fun i => "target" ++ toString i)
          else ["target"]
        pure (sourceCols ++ targetCols)
  .ok { columns := cols
        index := (List.range data.length).map Int.ofNat
        rows := data }

end Mapping

/-! ## Concrete instances used as failing inputs and witnesses -/

/-- The key function of `groupby(df, columns="A")` on a single-column frame:
project column 0 (the prepared `Cols("A")` evaluation function). -/
def colAKey : List Scalar → Value := fun row => Value.scalar (row.getD 0 default)

/-- A frame whose index labels `[1, 0]` are unique integers in a non-default
order — `GroupBy.map` does not reset such an index. -/
def exFrameSwapped : DataFrame := ⟨["A"], [1, 0], [[.int 1], [.int 2]]⟩

/-- The grouping `GroupBy.map` produces for `exFrameSwapped`: the stored
"row indices" are the index labels. -/
def exGroupingSwapped : DataFrameGrouping :=
  ⟨exFrameSwapped, [(Value.scalar (.int 1), [1]), (Value.scalar (.int 2), [0])]⟩

/-- The (wrong) group `get` returns for key `1` on `exGroupingSwapped`. -/
def exWrongGroup : DataFrame := ⟨["A"], [0], [[.int 2]]⟩

/-- A frame with unique integer labels `[0, 5]` outside the position range. -/
def exFrameGapped : DataFrame := ⟨["A"], [0, 5], [[.int 1], [.int 2]]⟩

/-- The grouping `GroupBy.map` produces for `exFrameGapped`. -/
def exGroupingGapped : DataFrameGrouping :=
  ⟨exFrameGapped, [(Value.scalar (.int 1), [0]), (Value.scalar (.int 2), [5])]⟩

/-- Meta counter initially stored for the duplicate-add counterexample. -/
def exMetaOld : Counter Value := [(Value.scalar (.int 7), 2)]

/-- Different meta counter passed to the second `add` call. -/
def exMetaNew : Counter Value := [(Value.scalar (.int 9), 1)]

/-- Group key used by the duplicate-add counterexample. -/
def exKeyA : Value := Value.scalar (.str "A")

/-- A violation that already holds key `"A"` with rows `[0]` and meta
`exMetaOld`. -/
def exViolation : DataFrameViolation :=
  { df := ⟨["A"], [0, 1], [[.int 1], [.int 2]]⟩
    groups := [(exKeyA, [0])]
    meta := [(exKeyA, some exMetaOld)] }

/-- A nonempty conflict summary not containing the value `1`. -/
def exS8 : ConflictSummary :=
  [(Value.scalar (.int 5), ⟨2, [(Value.scalar (.int 7), 1)]⟩)]

/-- An empty pipeline over a trivial reader/payload instantiation. -/
def exPipeline : DataPipeline Nat Nat := ⟨0, []⟩

/-- The pipeline `select(columns=[0], names=["a"])` returns: two operators
were appended. -/
def exPipelineSelected : DataPipeline Nat Nat :=
  ⟨0, [.select [ColRef.pos 0], .rename [ColRef.pos 0] ["a"]]⟩

/-- Four-row frame realizing the spec's conflict example: group `A` covers
the rows with column-`A` values `{1, 2}`, group `B` the rows with values
`{2, 3}`. -/
def exConflictFrame : DataFrame :=
  ⟨["A"], [0, 1, 2, 3], [[.int 1], [.int 2], [.int 2], [.int 3]]⟩

/-- The violation grouping of the spec's conflict example. -/
def exConflictViolation : DataFrameViolation :=
  { df := exConflictFrame
    groups := [(Value.scalar (.str "A"), [0, 1]), (Value.scalar (.str "B"), [2, 3])]
    meta := [(Value.scalar (.str "A"), none), (Value.scalar (.str "B"), none)] }

/-- Three-row frame with default index used for the `having` witnesses. -/
def exHavingFrame : DataFrame :=
  ⟨["A"], [0, 1, 2], [[.int 1], [.int 1], [.int 2]]⟩

/-- A violation with an absent key `"Z"` used by the unknown-key witness. -/
def exViolation6 : DataFrameViolation :=
  { df := ⟨["A"], [0, 1], [[.int 1], [.int 2]]⟩
    groups := [(exKeyA, [0, 1])]
    meta := [(exKeyA, none)] }

/-- Frame with a repeated source value in column `A` for the mapping
witness. -/
def exMapFrame : DataFrame :=
  ⟨["A", "B"], [0, 1, 2], [[.int 1, .int 10], [.int 2, .int 20], [.int 1, .int 30]]⟩

/-- Update function of the mapping witness: project column `B`. -/
def colBVal : List Scalar → Value := fun row => Value.scalar (row.getD 1 default)

/-- The full grouping `GroupBy.map` produces for `exHavingFrame` on column
`A`. -/
def exHavingAll : DataFrameGrouping :=
  ⟨exHavingFrame, [(Value.scalar (.int 1), [0, 1]), (Value.scalar (.int 2), [2])]⟩

/-- The summary `summarize_conflicts` produces for the spec's conflict
example. -/
def exSummary : ConflictSummary :=
  [(Value.scalar (.int 1), ⟨1, [(Value.scalar (.int 2), 1)]⟩),
   (Value.scalar (.int 2), ⟨2, [(Value.scalar (.int 1), 1), (Value.scalar (.int 3), 1)]⟩),
   (Value.scalar (.int 3), ⟨1, [(Value.scalar (.int 2), 1)]⟩)]

/-! ## Helper lemmas about insertion-ordered association lists -/

section AssocLemmas

variable {α β : Type} [DecidableEq α]

theorem lookup_append_right {l₁ : List (α × β)} (l₂ : List (α × β)) {k : α}
    (h : l₁.lookup k = none) : (l₁ ++ l₂).lookup k = l₂.lookup k := by
  induction l₁ with
  | nil => rfl
  | cons kv l ih =>
    obtain ⟨a, b⟩ := kv
    by_cases hak : a = k
    · simp [List.lookup, hak] at h
    · simp only [List.lookup, beq_false_of_ne (fun hk => hak hk.symm)] at h
      simpa [List.lookup, beq_false_of_ne (fun hk : k = a => hak hk.symm)] using ih h

theorem lookup_append_left {l₁ : List (α × β)} (l₂ : List (α × β)) {k : α}
    (h : (l₁.lookup k).isSome) : (l₁ ++ l₂).lookup k = l₁.lookup k := by
  induction l₁ with
  | nil => simp [List.lookup] at h
  | cons kv l ih =>
    obtain ⟨a, b⟩ := kv
    by_cases hak : a = k
    · simp [List.lookup, hak]
    · simp only [List.lookup, beq_false_of_ne (fun hk => hak hk.symm)] at h
      simpa [List.lookup, beq_false_of_ne (fun hk : k = a => hak hk.symm)] using ih h

theorem lookup_assocUpdate_self (m : List (α × β)) (k : α) (f : β → β) :
    (assocUpdate m k f).lookup k = (m.lookup k).map f := by
  induction m with
  | nil => rfl
  | cons kv l ih =>
    obtain ⟨a, b⟩ := kv
    simp only [assocUpdate, List.map_cons] at ih ⊢
    by_cases hak : a = k
    · rw [if_pos hak]
      subst hak
      simp [List.lookup]
    · rw [if_neg hak]
      simpa [List.lookup, beq_false_of_ne (fun hk : k = a => hak hk.symm)] using ih

theorem lookup_assocUpdate_ne (m : List (α × β)) {k x : α} (f : β → β)
    (h : x ≠ k) : (assocUpdate m k f).lookup x = m.lookup x := by
  induction m with
  | nil => rfl
  | cons kv l ih =>
    obtain ⟨a, b⟩ := kv
    simp only [assocUpdate, List.map_cons] at ih ⊢
    by_cases hak : a = k
    · rw [if_pos hak]
      subst hak
      simpa [List.lookup, beq_false_of_ne h] using ih
    · rw [if_neg hak]
      by_cases hax : a = x
      · subst hax
        simp [List.lookup]
      · simpa [List.lookup, beq_false_of_ne (fun hk : x = a => hax hk.symm)] using ih

theorem map_fst_assocUpdate (m : List (α × β)) (k : α) (f : β → β) :
    (assocUpdate m k f).map (fun kv => kv.1) = m.map (fun kv => kv.1) := by
  induction m with
  | nil => rfl
  | cons kv l ih =>
    obtain ⟨a, b⟩ := kv
    simp only [assocUpdate, List.map_cons] at ih ⊢
    by_cases hak : a = k
    · rw [if_pos hak]
      simp only [List.map_cons] at ih ⊢
      rw [ih, hak]
    · rw [if_neg hak]
      simp only [List.map_cons] at ih ⊢
      rw [ih]

theorem length_assocUpdate (m : List (α × β)) (k : α) (f : β → β) :
    (assocUpdate m k f).length = m.length := by
  simp [assocUpdate]

theorem lookup_assocSet_self (m : List (α × β)) (k : α) (v : β) :
    (assocSet m k v).lookup k = some v := by
  unfold assocSet
  by_cases h : (m.lookup k).isSome
  · rw [if_pos h, lookup_assocUpdate_self]
    rcases Option.isSome_iff_exists.mp h with ⟨b, hb⟩
    rw [hb]; rfl
  · rw [if_neg h, lookup_append_right _ (Option.not_isSome_iff_eq_none.mp h)]
    simp [List.lookup]

theorem lookup_assocSet_ne (m : List (α × β)) {k x : α} (v : β) (h : x ≠ k) :
    (assocSet m k v).lookup x = m.lookup x := by
  unfold assocSet
  by_cases hs : (m.lookup k).isSome
  · rw [if_pos hs, lookup_assocUpdate_ne _ _ h]
  · rw [if_neg hs]
    by_cases hx : (m.lookup x).isSome
    · exact lookup_append_left _ hx
    · rw [lookup_append_right _ (Option.not_isSome_iff_eq_none.mp hx),
        Option.not_isSome_iff_eq_none.mp hx]
      simp [List.lookup, beq_false_of_ne h]

end AssocLemmas

/-! ## C8 — defaultdict reads mutate the `ConflictSummary` -/

/-- **C8.** Subscripting a `ConflictSummary` with a value never recorded in
any conflict does not raise and does not return an absent marker: it creates,
stores and returns a fresh entry with count 0 and an empty partner counter;
afterwards the value is present (by lookup, by key membership and by the
summary's length). -/
theorem conflictSummary_read_creates_entry (s : ConflictSummary) (v : Value)
    (h : s.lookup v = none) :
    (s.getDefault v).2 = (⟨0, []⟩ : ValueConflicts) ∧
    ((s.getDefault v).2.count = 0 ∧ (s.getDefault v).2.values = []) ∧
    (s.getDefault v).1 = s ++ [(v, (⟨0, []⟩ : ValueConflicts))] ∧
    ((s.getDefault v).1).lookup v = some (⟨0, []⟩ : ValueConflicts) ∧
    v ∈ ((s.getDefault v).1).map (fun kv => kv.1) ∧
    ((s.getDefault v).1).length = s.length + 1 := by
  unfold ConflictSummary.getDefault
  rw [h]
  refine ⟨rfl, ⟨rfl, rfl⟩, rfl, ?_, ?_, by simp⟩
  · rw [lookup_append_right _ h]; simp [List.lookup]
  · simp

/-- Witness for C8 at a nonempty concrete summary. -/
theorem conflictSummary_read_creates_entry_witness :
    (exS8.lookup (Value.scalar (.int 1)) = none) ∧
    ((exS8.getDefault (Value.scalar (.int 1))).2 = (⟨0, []⟩ : ValueConflicts) ∧
     ((exS8.getDefault (Value.scalar (.int 1))).2.count = 0 ∧
      (exS8.getDefault (Value.scalar (.int 1))).2.values = []) ∧
     (exS8.getDefault (Value.scalar (.int 1))).1 = exS8 ++ [(Value.scalar (.int 1), (⟨0, []⟩ : ValueConflicts))] ∧
     ((exS8.getDefault (Value.scalar (.int 1))).1).lookup (Value.scalar (.int 1)) =
       some (⟨0, []⟩ : ValueConflicts) ∧
     Value.scalar (.int 1) ∈ ((exS8.getDefault (Value.scalar (.int 1))).1).map (fun kv => kv.1) ∧
     ((exS8.getDefault (Value.scalar (.int 1))).1).length = exS8.length + 1) :=
  ⟨by decide, conflictSummary_read_creates_entry exS8 (Value.scalar (.int 1)) (by decide)⟩

/-! ## C2 — duplicate key insertion -/

/-- **C2, counterexample.**  On `DataFrameViolation.add` with an existing key
the `ValueError` is raised, but the stored metadata counter for the key is
**not** left as it was: it has already been overwritten with the new meta
argument when the error is raised (the source assigns `self._meta[key] = meta`
before calling `super().add`). -/
theorem violation_add_duplicate_overwrites_meta :
    (exViolation.add exKeyA [1] (some exMetaNew)).2 =
      some (.valueError "duplicate key") ∧
    exViolation.get_meta exKeyA = some exMetaOld ∧
    (exViolation.add exKeyA [1] (some exMetaNew)).1.get_meta exKeyA =
      some exMetaNew ∧
    exMetaNew ≠ exMetaOld := by decide

/-- **C2, amended.**  Calling `add` again with an existing key raises a
`ValueError`-class error and leaves the row-index lists unchanged (for the
base grouping the whole state is unchanged); for a violation, however, the
metadata entry of the key has already been overwritten with the new meta
argument when the error is raised. -/
theorem add_duplicate_raises (v : DataFrameViolation) (key : Value)
    (rows : List Int) (meta : Option (Counter Value))
    (h : (v.toDataFrameGrouping.groups.lookup key).isSome) :
    (v.add key rows meta).2 = some (.valueError "duplicate key") ∧
    (v.add key rows meta).1.groups = v.groups ∧
    (v.add key rows meta).1.meta = assocSet v.meta key meta ∧
    (∀ (g : DataFrameGrouping) (rows' : List Int),
      (g.groups.lookup key).isSome →
        g.add key rows' = (g, some (.valueError "duplicate key"))) := by
  refine ⟨?_, ?_, ?_, ?_⟩
  · simp [DataFrameViolation.add, DataFrameGrouping.add, h]
  · simp [DataFrameViolation.add, DataFrameGrouping.add, h]
  · simp [DataFrameViolation.add]
  · intro g rows' hg
    simp [DataFrameGrouping.add, hg]

/-- Witness for C2 (amended) at the concrete duplicate-add instance. -/
theorem add_duplicate_raises_witness :
    ((exViolation.toDataFrameGrouping.groups.lookup exKeyA).isSome) ∧
    ((exViolation.add exKeyA [1] (some exMetaNew)).2 =
       some (.valueError "duplicate key") ∧
     (exViolation.add exKeyA [1] (some exMetaNew)).1.groups = exViolation.groups ∧
     (exViolation.add exKeyA [1] (some exMetaNew)).1.meta =
       assocSet exViolation.meta exKeyA (some exMetaNew) ∧
     (∀ (g : DataFrameGrouping) (rows' : List Int),
       (g.groups.lookup exKeyA).isSome →
         g.add exKeyA rows' = (g, some (.valueError "duplicate key")))) :=
  ⟨by decide, add_duplicate_raises exViolation exKeyA [1] (some exMetaNew) (by decide)⟩

/-! ## C5 — pipeline operations append operators without mutation -/

/-- **C5, counterexample.**  `select` with a renaming appends **two**
operators (`Select` then `Rename`), not exactly one: on the empty pipeline the
returned operator list has length 2. -/
theorem select_with_names_appends_two :
    exPipeline.select (some [ColRef.pos 0]) (some ["a"]) = .ok exPipelineSelected ∧
    exPipelineSelected.pipeline.length = exPipeline.pipeline.length + 2 ∧
    exPipeline.pipeline.length + 2 ≠ exPipeline.pipeline.length + 1 := by decide

/-- **C5, amended.**  Every pipeline operation is a pure function of the
pipeline value returning a new pipeline that shares the reader and extends the
operator list (structural sharing; the original list is never mutated):
`select` without renaming, `filter` without a limit, `insert`, `update` (with
at least one argument) and `typecast` append exactly one operator, while
`select` with a renaming appends `Select` and `Rename` and `filter` with a
limit appends `Filter` and `Limit`. -/
theorem pipeline_ops_append {R P : Type} (p : DataPipeline R P)
    (cols : List ColRef) (ns : List String) (pred : P) (n : Nat)
    (names : List String) (pos : Option Nat) (vals : Option P)
    (args : List P) (fn : P) (conv : Option P) :
    p.select (some cols) none =
      .ok ⟨p.reader, p.pipeline ++ [.select cols]⟩ ∧
    p.filter pred none = ⟨p.reader, p.pipeline ++ [.filter pred false]⟩ ∧
    p.insert names pos vals =
      ⟨p.reader, p.pipeline ++ [.inscol names pos vals]⟩ ∧
    p.update (args ++ [fn]) =
      .ok ⟨p.reader, p.pipeline ++ [.update args fn]⟩ ∧
    p.typecast conv = ⟨p.reader, p.pipeline ++ [.typecast conv]⟩ ∧
    p.select (some cols) (some ns) =
      .ok ⟨p.reader, p.pipeline ++ [.select cols,
        .rename ((List.range cols.length).map ColRef.pos) ns]⟩ ∧
    p.filter pred (some n) =
      ⟨p.reader, p.pipeline ++ [.filter pred false, .limit n]⟩ := by
  refine ⟨rfl, rfl, rfl, ?_, rfl, ?_, ?_⟩
  · simp [DataPipeline.update, DataPipeline.append]
  · simp [DataPipeline.select, DataPipeline.append]
  · simp [DataPipeline.filter, DataPipeline.limit, DataPipeline.append]

/-! ## C6 — unknown-key lookups return an explicit absent result -/

/-- **C6.**  For a key absent from a grouping/violation, `get`, `rows`,
`values` (with column references that resolve against the schema) and
`get_meta` all return the explicit absent result `None` and raise no error. -/
theorem unknown_key_lookups_return_none (v : DataFrameViolation) (key : Value)
    (cols : List ColRef)
    (hg : v.toDataFrameGrouping.groups.lookup key = none)
    (hm : v.meta.lookup key = none)
    (hc : isOkB (select_clause v.toDataFrameGrouping.df.columns cols) = true) :
    v.toDataFrameGrouping.get key = .ok none ∧
    v.toDataFrameGrouping.rowsOf key = none ∧
    v.toDataFrameGrouping.values key cols = .ok none ∧
    v.get_meta key = none := by
  refine ⟨?_, ?_, ?_, ?_⟩
  · simp [DataFrameGrouping.get, hg]
  · simp [DataFrameGrouping.rowsOf, hg]
  · obtain ⟨ix, hix⟩ : ∃ ix, select_clause v.toDataFrameGrouping.df.columns cols = .ok ix := by
      cases hsc : select_clause v.toDataFrameGrouping.df.columns cols with
      | ok ix => exact ⟨ix, rfl⟩
      | error e => rw [hsc] at hc; simp [isOkB] at hc
    simp only [DataFrameGrouping.values, hix, hg, bind, Except.bind]
  · simp [DataFrameViolation.get_meta, hm]

/-- Witness for C6 at a concrete violation and the absent key `"Z"`. -/
theorem unknown_key_lookups_return_none_witness :
    (exViolation6.toDataFrameGrouping.groups.lookup (Value.scalar (.str "Z")) = none ∧
     exViolation6.meta.lookup (Value.scalar (.str "Z")) = none ∧
     isOkB (select_clause exViolation6.toDataFrameGrouping.df.columns [ColRef.name "A"]) = true) ∧
    (exViolation6.toDataFrameGrouping.get (Value.scalar (.str "Z")) = .ok none ∧
     exViolation6.toDataFrameGrouping.rowsOf (Value.scalar (.str "Z")) = none ∧
     exViolation6.toDataFrameGrouping.values (Value.scalar (.str "Z")) [ColRef.name "A"] = .ok none ∧
     exViolation6.get_meta (Value.scalar (.str "Z")) = none) :=
  ⟨⟨by decide, by decide, by decide⟩,
    unknown_key_lookups_return_none exViolation6 (Value.scalar (.str "Z"))
      [ColRef.name "A"] (by decide) (by decide) (by decide)⟩

/-! ## C1 — groupby stores index labels, not positions -/

/-- **C1 (failing-input evaluation).**  For a frame whose index labels are
unique integers different from the row positions, `GroupBy.map` does not
reset the index and stores the **labels** as row indices.  With labels
`[1, 0]`: `get` on key `1` returns exactly the row whose computed key is `2`
(not `1`), falsifying "get(k) returns exactly the rows whose computed key
equals k".  With labels `[0, 5]`: the stored row index `5` is not one of the
frame's two positions, falsifying the subset property, and `get` on key `2`
raises an `IndexError`. -/
theorem groupby_uses_labels_not_positions :
    GroupBy.mapGroups exFrameSwapped colAKey = .ok exGroupingSwapped ∧
    exGroupingSwapped.get (Value.scalar (.int 1)) = .ok (some exWrongGroup) ∧
    exWrongGroup.rows = [[Scalar.int 2]] ∧
    (∀ r ∈ exWrongGroup.rows, colAKey r ≠ Value.scalar (.int 1)) ∧
    GroupBy.mapGroups exFrameGapped colAKey = .ok exGroupingGapped ∧
    exGroupingGapped.rowsOf (Value.scalar (.int 2)) = some [5] ∧
    exFrameGapped.nrows = 2 ∧
    exGroupingGapped.get (Value.scalar (.int 2)) =
      .error (.indexError "list assignment index out of range") := by decide

/-! ## C7 — `most_common` ranks by count, descending, stably -/

theorem mostCommon_le_trans (a b c : Value × Nat)
    (hab : decide (b.2 ≤ a.2) = true) (hbc : decide (c.2 ≤ b.2) = true) :
    decide (c.2 ≤ a.2) = true :=
  decide_eq_true (Nat.le_trans (of_decide_eq_true hbc) (of_decide_eq_true hab))

theorem mostCommon_le_total (a b : Value × Nat) :
    (decide (b.2 ≤ a.2) || decide (a.2 ≤ b.2)) = true := by
  rcases Nat.le_total b.2 a.2 with h | h <;> simp [h]

/-- **C7.**  `most_common(n)` is the first `n` entries of the key/count list
of the summary stably sorted by descending count: consecutive results have
non-increasing counts, and for every count value the entries carrying that
count appear in exactly their summary (encounter/insertion) order. -/
theorem most_common_ranks_descending_stably (s : ConflictSummary) (n : Nat) :
    (s.most_common n).Pairwise (fun a b => b.2 ≤ a.2) ∧
    (∀ c : Nat,
      ((s.map (fun kv => (kv.1, kv.2.count))).mergeSort
          (fun a b => b.2 ≤ a.2)).filter (fun kv => kv.2 = c) =
        (s.map (fun kv => (kv.1, kv.2.count))).filter (fun kv => kv.2 = c)) ∧
    s.most_common n =
      ((s.map (fun kv => (kv.1, kv.2.count))).mergeSort
        (fun a b => b.2 ≤ a.2)).take n := by
  refine ⟨?_, ?_, rfl⟩
  · have hsorted := List.sorted_mergeSort mostCommon_le_trans mostCommon_le_total
      (s.map (fun kv => (kv.1, kv.2.count)))
    have htake : (s.most_common n).Pairwise
        (fun a b : Value × Nat => decide (b.2 ≤ a.2) = true) :=
      hsorted.sublist (List.take_sublist _ _)
    exact htake.imp (fun h => of_decide_eq_true h)
  · intro c
    set l := s.map (fun kv => (kv.1, kv.2.count)) with hl
    set p : Value × Nat → Bool := fun kv => decide (kv.2 = c) with hp
    have hmemF : ∀ kv ∈ l.filter p, kv.2 = c := by
      intro kv hkv
      have := (List.mem_filter.mp hkv).2
      simpa [hp] using this
    have hpF : (l.filter p).Pairwise
        (fun a b : Value × Nat => decide (b.2 ≤ a.2) = true) := by
      refine List.pairwise_of_forall_mem_list ?_
      intro a ha b hb
      exact decide_eq_true (by rw [hmemF a ha, hmemF b hb])
    have hsub : (l.filter p).Sublist (l.mergeSort (fun a b => b.2 ≤ a.2)) :=
      List.sublist_mergeSort mostCommon_le_trans mostCommon_le_total hpF
        (List.filter_sublist l)
    have hsubF : (l.filter p).Sublist
        ((l.mergeSort (fun a b => b.2 ≤ a.2)).filter p) := by
      have := hsub.filter p
      rwa [List.filter_filter, show (fun kv => p kv && p kv) = p from by
        funext kv; cases p kv <;> rfl] at this
    have hperm : ((l.mergeSort (fun a b => b.2 ≤ a.2)).filter p).Perm
        (l.filter p) := (List.mergeSort_perm l _).filter p
    exact (hsubF.eq_of_length hperm.length_eq.symm).symm

/-! ## Counting lemmas for `Counter` and `ConflictSummary` -/

section CounterLemmas

variable {α : Type} [DecidableEq α]

theorem lookup_isSome_iff_mem_keys {β : Type} (l : List (α × β)) (k : α) :
    (l.lookup k).isSome = true ↔ k ∈ l.map (fun kv => kv.1) := by
  induction l with
  | nil => simp [List.lookup]
  | cons kv l ih =>
    obtain ⟨a, b⟩ := kv
    by_cases hak : a = k
    · subst hak
      simp [List.lookup]
    · simp [List.lookup, beq_false_of_ne (fun hk : k = a => hak hk.symm), ih,
        fun hk : k = a => hak hk.symm]
      tauto

theorem countOf_incr (c : Counter α) (k y : α) :
    (c.incr k).countOf y = c.countOf y + if y = k then 1 else 0 := by
  unfold Counter.incr Counter.countOf
  by_cases hs : (c.lookup k).isSome
  · rw [if_pos hs]
    by_cases hyk : y = k
    · subst hyk
      rw [lookup_assocUpdate_self]
      rcases Option.isSome_iff_exists.mp hs with ⟨n, hn⟩
      simp [hn]
    · rw [lookup_assocUpdate_ne _ _ hyk, if_neg hyk]
      cases c.lookup y <;> simp
  · rw [if_neg hs]
    have hnone := Option.not_isSome_iff_eq_none.mp hs
    by_cases hyk : y = k
    · subst hyk
      rw [lookup_append_right _ hnone, hnone]
      simp [List.lookup]
    · by_cases hy : (c.lookup y).isSome
      · rw [lookup_append_left _ hy, if_neg hyk]
        cases c.lookup y <;> simp
      · rw [lookup_append_right _ (Option.not_isSome_iff_eq_none.mp hy),
          Option.not_isSome_iff_eq_none.mp hy, if_neg hyk]
        simp [List.lookup, beq_false_of_ne (fun hk : y = k => hyk hk)]

theorem countOf_foldl_incr (l : List α) (c : Counter α) (y : α) :
    ((l.foldl (fun c v => c.incr v) c).countOf y) = c.countOf y + l.count y := by
  induction l generalizing c with
  | nil => simp
  | cons v l ih =>
    simp only [List.foldl_cons, ih, countOf_incr, List.count_cons]
    by_cases hvy : v = y
    · subst hvy
      simp [Nat.add_assoc, Nat.add_comm]
    · have hyv : ¬ y = v := fun h => hvy h.symm
      simp [hvy, beq_false_of_ne hvy, hyv]

theorem keys_nodup_incr (c : Counter α) (k : α)
    (h : (c.map (fun kv => kv.1)).Nodup) :
    ((c.incr k).map (fun kv => kv.1)).Nodup := by
  unfold Counter.incr
  by_cases hs : (c.lookup k).isSome
  · rw [if_pos hs, map_fst_assocUpdate]
    exact h
  · rw [if_neg hs]
    have hk : k ∉ c.map (fun kv => kv.1) := by
      rw [← lookup_isSome_iff_mem_keys]
      simpa using hs
    rw [List.map_append]
    refine List.nodup_append.mpr ⟨h, by simp, ?_⟩
    intro a ha hmem
    simp only [List.map_cons, List.map_nil, List.mem_singleton] at hmem
    subst hmem
    exact hk ha

end CounterLemmas

section ConflictSummaryLemmas

theorem getDefault_lookup_self (s : ConflictSummary) (v : Value) :
    ((s.getDefault v).1).lookup v = some ((s.getDefault v).2) := by
  unfold ConflictSummary.getDefault
  cases hv : s.lookup v with
  | some vc => simpa using hv
  | none =>
    simp only
    rw [lookup_append_right _ hv]
    simp [List.lookup]

theorem getDefault_lookup_ne (s : ConflictSummary) {v x : Value} (h : x ≠ v) :
    ((s.getDefault v).1).lookup x = s.lookup x := by
  unfold ConflictSummary.getDefault
  cases hv : s.lookup v with
  | some vc => rfl
  | none =>
    simp only
    by_cases hx : (s.lookup x).isSome
    · exact lookup_append_left _ hx
    · rw [lookup_append_right _ (Option.not_isSome_iff_eq_none.mp hx),
        Option.not_isSome_iff_eq_none.mp hx]
      simp [List.lookup, beq_false_of_ne (fun hk : x = v => h hk)]

theorem getDefault_snd_count (s : ConflictSummary) (v : Value) :
    ((s.getDefault v).2).count = s.countOf v := by
  unfold ConflictSummary.getDefault ConflictSummary.countOf
  cases hv : s.lookup v <;> simp [hv]

theorem getDefault_snd_values (s : ConflictSummary) (v y : Value) :
    ((s.getDefault v).2).values.countOf y = s.partnerCount v y := by
  unfold ConflictSummary.getDefault ConflictSummary.partnerCount
  cases hv : s.lookup v <;> simp [hv, Counter.countOf, List.lookup]

theorem addVal_lookup_self (s : ConflictSummary) (val : Value) (L : List Value) :
    (s.addVal val L).lookup val =
      some { count := (s.getDefault val).2.count + 1
             values := (L.filter (fun c => c ≠ val)).foldl
               (fun cnt c => cnt.incr c) (s.getDefault val).2.values } := by
  unfold ConflictSummary.addVal
  rw [lookup_assocUpdate_self, getDefault_lookup_self]
  rfl

theorem addVal_lookup_ne (s : ConflictSummary) (val : Value) (L : List Value)
    {x : Value} (hx : x ≠ val) :
    (s.addVal val L).lookup x = s.lookup x := by
  unfold ConflictSummary.addVal
  rw [lookup_assocUpdate_ne _ _ hx, getDefault_lookup_ne _ hx]

theorem addVal_countOf (s : ConflictSummary) (val : Value) (L : List Value)
    (x : Value) :
    (s.addVal val L).countOf x = s.countOf x + if x = val then 1 else 0 := by
  by_cases hx : x = val
  · subst hx
    unfold ConflictSummary.countOf
    rw [addVal_lookup_self]
    show (s.getDefault x).2.count + 1 = _
    rw [getDefault_snd_count]
    simp [ConflictSummary.countOf]
  · unfold ConflictSummary.countOf
    rw [addVal_lookup_ne _ _ _ hx, if_neg hx]
    cases s.lookup x <;> simp

theorem addVal_partnerCount (s : ConflictSummary) (val : Value) (L : List Value)
    (x y : Value) :
    (s.addVal val L).partnerCount x y = s.partnerCount x y +
      if x = val then (L.filter (fun c => c ≠ val)).count y else 0 := by
  by_cases hx : x = val
  · subst hx
    unfold ConflictSummary.partnerCount
    rw [addVal_lookup_self]
    show ((L.filter (fun c => c ≠ x)).foldl (fun cnt c => cnt.incr c)
      (s.getDefault x).2.values).countOf y = _
    rw [countOf_foldl_incr, getDefault_snd_values]
    unfold ConflictSummary.partnerCount
    simp
  · unfold ConflictSummary.partnerCount
    rw [addVal_lookup_ne _ _ _ hx, if_neg hx]
    cases s.lookup x <;> simp

theorem addAux_countOf (L : List Value) (x : Value) :
    ∀ (L' : List Value) (s : ConflictSummary), L'.Nodup →
    ((L'.foldl (fun s val => s.addVal val L) s).countOf x) =
      s.countOf x + if x ∈ L' then 1 else 0 := by
  intro L'
  induction L' with
  | nil => simp
  | cons val L' ih =>
    intro s hnd
    rcases List.nodup_cons.mp hnd with ⟨hval, hnd'⟩
    simp only [List.foldl_cons, ih _ hnd', addVal_countOf]
    by_cases hx : x = val
    · subst hx
      simp [hval]
    · simp [hx, fun h : x = val => hx h]

theorem conflictSummary_add_countOf (s : ConflictSummary) (L : List Value)
    (x : Value) (hnd : L.Nodup) :
    (s.add L).countOf x = s.countOf x + if x ∈ L then 1 else 0 :=
  addAux_countOf L x L s hnd

theorem addAux_partnerCount (L : List Value) (x y : Value) (hxy : x ≠ y)
    (hndL : L.Nodup) :
    ∀ (L' : List Value) (s : ConflictSummary), L'.Nodup →
    ((L'.foldl (fun s val => s.addVal val L) s).partnerCount x y) =
      s.partnerCount x y + if x ∈ L' ∧ y ∈ L then 1 else 0 := by
  intro L'
  induction L' with
  | nil => simp
  | cons val L' ih =>
    intro s hnd
    rcases List.nodup_cons.mp hnd with ⟨hval, hnd'⟩
    simp only [List.foldl_cons, ih _ hnd', addVal_partnerCount]
    by_cases hx : x = val
    · subst hx
      have hyx : ¬ y = x := fun h => hxy h.symm
      have hcount : (L.filter (fun c => !decide (c = x))).count y =
          if y ∈ L then 1 else 0 := by
        rw [List.count_filter (by simp [hyx])]
        by_cases hy : y ∈ L
        · simp [hy, List.count_eq_one_of_mem hndL hy]
        · simp [hy, List.count_eq_zero_of_not_mem hy]
      simp only [ne_eq, decide_not, if_true, eq_self_iff_true]
      rw [hcount]
      by_cases hy : y ∈ L
      · simp [hval, hy, Nat.add_comm]
      · simp [hval, hy]
    · have hnx : ¬ (x = val ∧ y ∈ L) := fun h => hx h.1
      simp [hx, hnx]

theorem conflictSummary_add_partnerCount (s : ConflictSummary) (L : List Value)
    (x y : Value) (hxy : x ≠ y) (hnd : L.Nodup) :
    (s.add L).partnerCount x y = s.partnerCount x y +
      if x ∈ L ∧ y ∈ L then 1 else 0 :=
  addAux_partnerCount L x y hxy hnd L s hnd

end ConflictSummaryLemmas

/-! ## C3 — conflict summaries count groups -/

theorem foldlM_incr_keys_nodup (proj : Int → Except PyError Value) :
    ∀ (rs : List Int) (c0 : Counter Value),
    (c0.map (fun kv => kv.1)).Nodup →
    ∀ c, rs.foldlM (fun (result : Counter Value) rowidx => do
        let v ← proj rowidx
        .ok (result.incr v)) c0 = .ok c →
      (c.map (fun kv => kv.1)).Nodup := by
  intro rs
  induction rs with
  | nil =>
    intro c0 h0 c hc
    rw [List.foldlM_nil] at hc
    cases hc
    exact h0
  | cons i rs ih =>
    intro c0 h0 c hc
    rw [List.foldlM_cons] at hc
    cases hpi : proj i with
    | error e =>
      rw [hpi] at hc
      simp [bind, Except.bind] at hc
    | ok v =>
      rw [hpi] at hc
      simp only [bind, Except.bind] at hc
      exact ih (c0.incr v) (keys_nodup_incr c0 v h0) c hc

theorem countValues_keys_nodup (proj : Int → Except PyError Value)
    (rs : List Int) (c : Counter Value)
    (h : DataFrameGrouping.countValues proj rs = .ok c) :
    (c.map (fun kv => kv.1)).Nodup :=
  foldlM_incr_keys_nodup proj rs [] (by simp) c h

theorem except_bind_some {ε α : Type} (r : Except ε α) (a : α)
    (h : (r >>= fun v => (.ok (some v) : Except ε (Option α))) = .ok (some a)) :
    r = .ok a := by
  cases r with
  | error e => simp [bind, Except.bind] at h
  | ok v => simpa [bind, Except.bind] using h

theorem values_keys_nodup (g : DataFrameGrouping) (key : Value)
    (cols : List ColRef) (cnt : Counter Value)
    (h : g.values key cols = .ok (some cnt)) :
    (cnt.map (fun kv => kv.1)).Nodup := by
  unfold DataFrameGrouping.values at h
  cases hsc : select_clause g.df.columns cols with
  | error e =>
    rw [hsc] at h
    simp [bind, Except.bind] at h
  | ok colidx =>
    rw [hsc] at h
    simp only [bind, Except.bind] at h
    cases hlk : g.groups.lookup key with
    | none =>
      rw [hlk] at h
      simp at h
    | some rs =>
      rw [hlk] at h
      match colidx, h with
      | [cidx], h =>
        exact countValues_keys_nodup _ _ _ (except_bind_some _ cnt h)
      | [], h =>
        exact countValues_keys_nodup _ _ _ (except_bind_some _ cnt h)
      | c1 :: c2 :: crest, h =>
        exact countValues_keys_nodup _ _ _ (except_bind_some _ cnt h)

theorem conflictList_nodup (v : DataFrameViolation) (cols : List ColRef)
    (k : Value) : (v.conflictList cols k).Nodup := by
  unfold DataFrameViolation.conflictList
  cases h : v.conflicts k cols with
  | ok o =>
    cases o with
    | some cnt => exact values_keys_nodup _ _ _ _ h
    | none => simp
  | error e => simp

theorem summarize_foldl (v : DataFrameViolation) (cols : List ColRef) :
    ∀ (ks : List Value) (s0 : ConflictSummary),
    (∀ k ∈ ks, isOkSomeB (v.conflicts k cols) = true) →
    ∃ s, ks.foldlM (v.summarizeStep cols) s0 = .ok s ∧
      (∀ x, s.countOf x = s0.countOf x + (ks.filter (fun k =>
        decide (1 < (v.conflictList cols k).length) &&
        decide (x ∈ v.conflictList cols k))).length) ∧
      (∀ x y, x ≠ y → s.partnerCount x y = s0.partnerCount x y +
        (ks.filter (fun k =>
          decide (1 < (v.conflictList cols k).length) &&
          decide (x ∈ v.conflictList cols k) &&
          decide (y ∈ v.conflictList cols k))).length) := by
  intro ks
  induction ks with
  | nil =>
    intro s0 _
    exact ⟨s0, by rw [List.foldlM_nil]; rfl, by simp, by simp⟩
  | cons k ks ih =>
    intro s0 hok
    have hk := hok k (List.mem_cons_self k ks)
    obtain ⟨cnt, hcnt⟩ : ∃ cnt, v.conflicts k cols = .ok (some cnt) := by
      cases hc : v.conflicts k cols with
      | ok o =>
        cases o with
        | some cnt => exact ⟨cnt, rfl⟩
        | none => rw [hc] at hk; simp [isOkSomeB] at hk
      | error e => rw [hc] at hk; simp [isOkSomeB] at hk
    have hCL : v.conflictList cols k = cnt.map (fun kv => kv.1) := by
      unfold DataFrameViolation.conflictList
      rw [hcnt]
    have hnd : (v.conflictList cols k).Nodup := conflictList_nodup v cols k
    have hstep : ∀ s', v.summarizeStep cols s' k =
        .ok (if 1 < (cnt.map (fun kv => kv.1)).length
             then s'.add (cnt.map (fun kv => kv.1)) else s') := by
      intro s'
      unfold DataFrameViolation.summarizeStep
      rw [hcnt]
      simp only [bind, Except.bind]
      by_cases hlen : 1 < (cnt.map (fun kv => kv.1)).length
      · rw [if_pos hlen, if_pos hlen]
      · rw [if_neg hlen, if_neg hlen]
    have htail : ∀ k' ∈ ks, isOkSomeB (v.conflicts k' cols) = true :=
      fun k' hk' => hok k' (List.mem_cons_of_mem _ hk')
    by_cases hlen : 1 < (v.conflictList cols k).length
    · obtain ⟨s, hfold, hc, hp⟩ := ih (s0.add (v.conflictList cols k)) htail
      refine ⟨s, ?_, ?_, ?_⟩
      · rw [List.foldlM_cons, hstep, if_pos (by rwa [hCL] at hlen), ← hCL]
        simpa [bind, Except.bind] using hfold
      · intro x
        rw [hc x, conflictSummary_add_countOf _ _ _ hnd]
        rw [List.filter_cons]
        by_cases hx : x ∈ v.conflictList cols k
        · simp [hlen, hx, Nat.add_assoc, Nat.add_comm, Nat.add_left_comm]
        · simp [hlen, hx]
      · intro x y hxy
        rw [hp x y hxy, conflictSummary_add_partnerCount _ _ _ _ hxy hnd]
        rw [List.filter_cons]
        by_cases hx : x ∈ v.conflictList cols k
        · by_cases hy : y ∈ v.conflictList cols k
          · simp [hlen, hx, hy, Nat.add_assoc, Nat.add_comm, Nat.add_left_comm]
          · simp [hlen, hx, hy]
        · simp [hlen, hx]
    · obtain ⟨s, hfold, hc, hp⟩ := ih s0 htail
      refine ⟨s, ?_, ?_, ?_⟩
      · rw [List.foldlM_cons, hstep, if_neg (by rwa [hCL] at hlen)]
        simpa [bind, Except.bind] using hfold
      · intro x
        rw [hc x, List.filter_cons]
        simp [hlen]
      · intro x y hxy
        rw [hp x y hxy, List.filter_cons]
        simp [hlen]

/-- **C3.**  `summarize_conflicts(columns)` records, for each group with more
than one distinct value in the given columns, every such distinct value: the
recorded count of a value equals the number of group keys whose (distinct)
conflict list has length `> 1` and contains the value, and the partner
counter of a value maps every co-occurring value to the number of such shared
groups. -/
theorem summarize_conflicts_counts (v : DataFrameViolation) (cols : List ColRef)
    (hok : ∀ k ∈ v.toDataFrameGrouping.keys,
      isOkSomeB (v.conflicts k cols) = true) :
    ∃ s, v.summarize_conflicts cols = .ok s ∧
      (∀ x, s.countOf x = (v.toDataFrameGrouping.keys.filter (fun k =>
        decide (1 < (v.conflictList cols k).length) &&
        decide (x ∈ v.conflictList cols k))).length) ∧
      (∀ x y, x ≠ y → s.partnerCount x y =
        (v.toDataFrameGrouping.keys.filter (fun k =>
          decide (1 < (v.conflictList cols k).length) &&
          decide (x ∈ v.conflictList cols k) &&
          decide (y ∈ v.conflictList cols k))).length) := by
  obtain ⟨s, hfold, hc, hp⟩ :=
    summarize_foldl v cols v.toDataFrameGrouping.keys [] hok
  refine ⟨s, hfold, ?_, ?_⟩
  · intro x
    simpa [ConflictSummary.countOf, List.lookup] using hc x
  · intro x y hxy
    simpa [ConflictSummary.partnerCount, List.lookup] using hp x y hxy

/-- Witness for C3 at the spec's example (group `A` with values `{1, 2}`,
group `B` with values `{2, 3}`): value 2 gets count 2, values 1 and 3 count
1, and value 2's partner counter maps 1 and 3 to 1 each. -/
theorem summarize_conflicts_counts_witness :
    ((∀ k ∈ exConflictViolation.toDataFrameGrouping.keys,
       isOkSomeB (exConflictViolation.conflicts k [ColRef.name "A"]) = true) ∧
     exConflictViolation.summarize_conflicts [ColRef.name "A"] = .ok exSummary ∧
     exSummary.countOf (Value.scalar (.int 2)) = 2 ∧
     exSummary.countOf (Value.scalar (.int 1)) = 1 ∧
     exSummary.countOf (Value.scalar (.int 3)) = 1 ∧
     exSummary.partnerCount (Value.scalar (.int 2)) (Value.scalar (.int 1)) = 1 ∧
     exSummary.partnerCount (Value.scalar (.int 2)) (Value.scalar (.int 3)) = 1) ∧
    (∃ s, exConflictViolation.summarize_conflicts [ColRef.name "A"] = .ok s ∧
      (∀ x, s.countOf x = (exConflictViolation.toDataFrameGrouping.keys.filter (fun k =>
        decide (1 < (exConflictViolation.conflictList [ColRef.name "A"] k).length) &&
        decide (x ∈ exConflictViolation.conflictList [ColRef.name "A"] k))).length) ∧
      (∀ x y, x ≠ y → s.partnerCount x y =
        (exConflictViolation.toDataFrameGrouping.keys.filter (fun k =>
          decide (1 < (exConflictViolation.conflictList [ColRef.name "A"] k).length) &&
          decide (x ∈ exConflictViolation.conflictList [ColRef.name "A"] k) &&
          decide (y ∈ exConflictViolation.conflictList [ColRef.name "A"] k))).length)) :=
  ⟨by decide,
    summarize_conflicts_counts exConflictViolation [ColRef.name "A"] (by decide)⟩

/-! ## Mask-building lemmas for `DataFrameGrouping.get` -/

theorem lookup_of_mem_nodup {α β : Type} [DecidableEq α]
    {l : List (α × β)} {kv : α × β}
    (hnd : (l.map (fun kv => kv.1)).Nodup) (hmem : kv ∈ l) :
    l.lookup kv.1 = some kv.2 := by
  induction l with
  | nil => cases hmem
  | cons hd tl ih =>
    obtain ⟨a, b⟩ := hd
    rcases List.mem_cons.mp hmem with heq | htl
    · subst heq
      simp [List.lookup]
    · rcases List.nodup_cons.mp hnd with ⟨hna, hnd'⟩
      have hne : kv.1 ≠ a := by
        intro h
        exact hna (h ▸ List.mem_map_of_mem (fun kv => kv.1) htl)
      simp only [List.lookup, beq_false_of_ne hne]
      exact ih hnd' htl

theorem pySet_true_ok (mask : List Bool) (i : Int)
    (h0 : 0 ≤ i) (hlt : i.toNat < mask.length) :
    pySet mask i true = .ok (mask.set i.toNat true) := by
  unfold pySet pyIdx
  rw [if_neg (Int.not_lt.mpr h0)]
  rw [if_pos ⟨h0, by
    calc i = (i.toNat : Int) := (Int.toNat_of_nonneg h0).symm
    _ < (mask.length : Int) := by exact_mod_cast hlt⟩]

theorem foldlM_pySet_char :
    ∀ (rs : List Int) (mask : List Bool),
    (∀ i ∈ rs, 0 ≤ i ∧ i.toNat < mask.length) →
    ∃ mask', rs.foldlM (fun p i => pySet p i true) mask = .ok mask' ∧
      mask'.length = mask.length ∧
      ∀ j : Nat, mask'[j]? =
        if rs.any (fun i => i.toNat == j) then some true else mask[j]? := by
  intro rs
  induction rs with
  | nil =>
    intro mask _
    exact ⟨mask, by rw [List.foldlM_nil]; rfl, rfl, by simp⟩
  | cons i rs ih =>
    intro mask hval
    obtain ⟨h0, hlt⟩ := hval i (List.mem_cons_self i rs)
    have hstep := pySet_true_ok mask i h0 hlt
    have hval' : ∀ i' ∈ rs, 0 ≤ i' ∧ i'.toNat < (mask.set i.toNat true).length := by
      intro i' hi'
      rw [List.length_set]
      exact hval i' (List.mem_cons_of_mem _ hi')
    obtain ⟨mask', hfold, hlen, hchar⟩ := ih (mask.set i.toNat true) hval'
    refine ⟨mask', ?_, by rw [hlen, List.length_set], ?_⟩
    · rw [List.foldlM_cons, hstep]
      simpa [bind, Except.bind] using hfold
    · intro j
      rw [hchar j, List.any_cons]
      by_cases hij : i.toNat = j
      · subst hij
        have hj : (mask.set i.toNat true)[i.toNat]? = some true :=
          List.getElem?_set_self hlt
        by_cases hrs : rs.any (fun i' => i'.toNat == i.toNat)
        · simp [hrs, hj]
        · simp [hrs, hj]
      · have hj : (mask.set i.toNat true)[j]? = mask[j]? :=
          List.getElem?_set_ne hij
        by_cases hrs : rs.any (fun i' => i'.toNat == j)
        · simp [hrs, hj, hij]
        · simp [hrs, hj, hij]

theorem count_true_eq_filter_range :
    ∀ (mask : List Bool),
    mask.count true = ((List.range mask.length).filter
      (fun j => mask.getD j false)).length := by
  intro mask
  induction mask with
  | nil => simp
  | cons b m ih =>
    rw [List.count_cons, List.length_cons, List.range_succ_eq_map]
    rw [List.filter_cons]
    simp only [List.getD_cons_zero, List.getD_cons_succ, List.filter_map,
      List.length_map]
    cases b <;> simp [ih, Function.comp_def, Nat.add_comm]

theorem zip_filter_length {α : Type} :
    ∀ (l : List α) (mask : List Bool), l.length = mask.length →
    (((l.zip mask).filter (fun p => p.2)).map (fun p => p.1)).length =
      mask.count true := by
  intro l
  induction l with
  | nil =>
    intro mask h
    cases mask with
    | nil => simp
    | cons b m => simp at h
  | cons a l ih =>
    intro mask h
    cases mask with
    | nil => simp at h
    | cons b m =>
      rw [List.length_cons, List.length_cons, Nat.succ_inj] at h
      rw [List.zip_cons_cons, List.filter_cons, List.count_cons]
      cases b <;> simp [ih m h, Nat.add_comm]

theorem count_true_of_char (mask' : List Bool) (rs : List Int) (n : Nat)
    (hlen : mask'.length = n)
    (hchar : ∀ j : Nat, mask'[j]? =
      if rs.any (fun i => i.toNat == j) then some true
      else (List.replicate n false)[j]?)
    (hnd : rs.Nodup) (hval : ∀ i ∈ rs, 0 ≤ i ∧ i.toNat < n) :
    mask'.count true = rs.length := by
  rw [count_true_eq_filter_range, hlen]
  have hgetD : ∀ j < n, mask'.getD j false = rs.any (fun i => i.toNat == j) := by
    intro j hj
    rw [List.getD_eq_getElem?_getD, hchar j, List.getElem?_replicate, if_pos hj]
    cases rs.any (fun i => i.toNat == j) <;> simp
  have hfc : (List.range n).filter (fun j => mask'.getD j false) =
      (List.range n).filter (fun j => rs.any (fun i => i.toNat == j)) :=
    List.filter_congr (fun j hj => hgetD j (List.mem_range.mp hj))
  rw [hfc]
  have hndF : ((List.range n).filter
      (fun j => rs.any (fun i => i.toNat == j))).Nodup :=
    (List.nodup_range n).filter _
  have hndM : (rs.map Int.toNat).Nodup := by
    refine hnd.map_on ?_
    intro x hx y hy hxy
    have hx0 := (hval x hx).1
    have hy0 := (hval y hy).1
    calc x = (x.toNat : Int) := (Int.toNat_of_nonneg hx0).symm
    _ = (y.toNat : Int) := by exact_mod_cast hxy
    _ = y := Int.toNat_of_nonneg hy0
  have hperm : ((List.range n).filter
      (fun j => rs.any (fun i => i.toNat == j))).Perm (rs.map Int.toNat) := by
    rw [List.perm_ext_iff_of_nodup hndF hndM]
    intro j
    constructor
    · intro hj
      rcases List.mem_filter.mp hj with ⟨_, hany⟩
      rcases List.any_eq_true.mp hany with ⟨i, hi, hij⟩
      exact List.mem_map.mpr ⟨i, hi, by simpa using hij⟩
    · intro hj
      rcases List.mem_map.mp hj with ⟨i, hi, hij⟩
      refine List.mem_filter.mpr ⟨List.mem_range.mpr ?_, ?_⟩
      · rw [← hij]
        exact (hval i hi).2
      · exact List.any_eq_true.mpr ⟨i, hi, by simpa using hij⟩
  rw [hperm.length_eq, List.length_map]

/-- Under well-formedness, `get` materializes every stored group: it returns
a frame over the same schema whose row count is the length of the stored
row-index list. -/
theorem get_ok_of_wf (g : DataFrameGrouping) (hwf : g.WellFormed)
    {kv : Value × List Int} (hmem : kv ∈ g.groups) :
    ∃ gdf, g.get kv.1 = .ok (some gdf) ∧ gdf.nrows = kv.2.length ∧
      gdf.columns = g.df.columns := by
  obtain ⟨hkeys, hidx, hgroups⟩ := hwf
  obtain ⟨hndrs, hvalrs⟩ := hgroups kv hmem
  have hlk : g.groups.lookup kv.1 = some kv.2 := lookup_of_mem_nodup hkeys hmem
  have hval' : ∀ i ∈ kv.2, 0 ≤ i ∧
      i.toNat < (List.replicate g.df.nrows false).length := by
    intro i hi
    rw [List.length_replicate]
    exact hvalrs i hi
  obtain ⟨mask', hfold, hlen, hchar⟩ := foldlM_pySet_char kv.2
    (List.replicate g.df.nrows false) hval'
  rw [List.length_replicate] at hlen
  refine ⟨g.df.filterByMask mask', ?_, ?_, rfl⟩
  · unfold DataFrameGrouping.get
    rw [hlk]
    show (do
      let pred ← List.foldlM (fun p i => pySet p i true)
        (List.replicate g.df.nrows false) kv.2
      Except.ok (some (g.df.filterByMask pred))) = _
    rw [hfold]
    rfl
  · show (((g.df.rows.zip mask').filter (fun p => p.2)).map (fun p => p.1)).length = _
    rw [zip_filter_length g.df.rows mask' (by rw [hlen]; rfl)]
    exact count_true_of_char mask' kv.2 g.df.nrows hlen
      (by simpa [List.length_replicate] using hchar) hndrs hvalrs

/-! ## The `having` selection loop of `groupby` -/

theorem groupbySelectStep_eq (all : DataFrameGrouping) (cond : GroupBy.Having)
    (sel : DataFrameGrouping) (kv : Value × List Int) (gdf : DataFrame)
    (keep : Bool) (hget : all.get kv.1 = .ok (some gdf))
    (hsel : GroupBy.select gdf cond = .ok keep)
    (hfree : sel.groups.lookup kv.1 = none) :
    groupbySelectStep all cond sel kv =
      .ok (if keep then ⟨sel.df, sel.groups ++ [(kv.1, gdf.index)]⟩ else sel) := by
  unfold groupbySelectStep
  rw [hget]
  show (do
    let keep ← GroupBy.select gdf cond
    if keep then
      match sel.add kv.1 gdf.index with
      | (s', none) => .ok s'
      | (_, some e) => .error e
    else
      .ok sel) = _
  rw [hsel]
  cases keep with
  | false => rfl
  | true =>
    show (match sel.add kv.1 gdf.index with
      | (s', none) => Except.ok s'
      | (_, some e) => .error e) = _
    unfold DataFrameGrouping.add
    rw [if_neg (by rw [hfree]; simp)]
    rfl

theorem groupby_loop_char (all : DataFrameGrouping) (cond : GroupBy.Having) :
    ∀ (gs : List (Value × List Int)) (sel : DataFrameGrouping),
    (∀ kv ∈ gs, ∃ gdf keep, all.get kv.1 = .ok (some gdf) ∧
      GroupBy.select gdf cond = .ok keep) →
    (gs.map (fun kv => kv.1)).Nodup →
    (∀ kv ∈ gs, sel.groups.lookup kv.1 = none) →
    gs.foldlM (groupbySelectStep all cond) sel =
      .ok ⟨sel.df, sel.groups ++ gs.filterMap (keptEntry all cond)⟩ := by
  intro gs
  induction gs with
  | nil =>
    intro sel _ _ _
    rw [List.foldlM_nil]
    show Except.ok sel = _
    rw [List.filterMap_nil, List.append_nil]
  | cons kv gs ih =>
    intro sel hok hnd hfree
    obtain ⟨gdf, keep, hget, hsel⟩ := hok kv (List.mem_cons_self kv gs)
    rcases List.nodup_cons.mp hnd with ⟨hkv, hnd'⟩
    have hfreekv := hfree kv (List.mem_cons_self kv gs)
    cases keep with
    | false =>
      have hke : keptEntry all cond kv = none := by
        simp [keptEntry, hget, hsel]
      have hstep' : groupbySelectStep all cond sel kv = .ok sel := by
        rw [groupbySelectStep_eq all cond sel kv gdf false hget hsel hfreekv]
        simp
      rw [List.foldlM_cons, hstep', List.filterMap_cons, hke]
      have htail := ih sel (fun kv' h => hok kv' (List.mem_cons_of_mem _ h)) hnd'
        (fun kv' h => hfree kv' (List.mem_cons_of_mem _ h))
      simpa [bind, Except.bind] using htail
    | true =>
      have hke : keptEntry all cond kv = some (kv.1, gdf.index) := by
        simp [keptEntry, hget, hsel]
      have hstep' : groupbySelectStep all cond sel kv =
          .ok ⟨sel.df, sel.groups ++ [(kv.1, gdf.index)]⟩ := by
        rw [groupbySelectStep_eq all cond sel kv gdf true hget hsel hfreekv]
        simp
      have hfree' : ∀ kv' ∈ gs,
          (sel.groups ++ [(kv.1, gdf.index)]).lookup kv'.1 = none := by
        intro kv' h
        rw [lookup_append_right _ (hfree kv' (List.mem_cons_of_mem _ h))]
        have hne : kv'.1 ≠ kv.1 := by
          intro heq
          have hmm : kv'.1 ∈ List.map (fun kv => kv.1) gs :=
            List.mem_map_of_mem (fun kv => kv.1) h
          rw [heq] at hmm
          exact hkv hmm
        simp [List.lookup, beq_false_of_ne hne,
          beq_false_of_ne (fun hk : kv.1 = kv'.1 => hne hk.symm)]
      have htail := ih ⟨sel.df, sel.groups ++ [(kv.1, gdf.index)]⟩
        (fun kv' h => hok kv' (List.mem_cons_of_mem _ h)) hnd' hfree'
      rw [List.foldlM_cons, hstep', List.filterMap_cons, hke]
      show gs.foldlM (groupbySelectStep all cond)
        ⟨sel.df, sel.groups ++ [(kv.1, gdf.index)]⟩ = _
      rw [htail]
      simp

theorem groupby_loop_error (all : DataFrameGrouping)
    (fc : DataFrame → Option Bool) :
    ∀ (gs : List (Value × List Int)) (sel : DataFrameGrouping),
    (∀ kv ∈ gs, ∃ gdf, all.get kv.1 = .ok (some gdf)) →
    (gs.map (fun kv => kv.1)).Nodup →
    (∀ kv ∈ gs, sel.groups.lookup kv.1 = none) →
    (∃ kv ∈ gs, all.onGroup kv.1 (fun gdf => (fc gdf).isSome) = false) →
    gs.foldlM (groupbySelectStep all (.callable fc)) sel =
      .error (.typeError "selection condition expected to return a boolean") := by
  intro gs
  induction gs with
  | nil =>
    intro sel _ _ _ hex
    rcases hex with ⟨kv, hkv, _⟩
    cases hkv
  | cons kv gs ih =>
    intro sel hok hnd hfree hex
    obtain ⟨gdf, hget⟩ := hok kv (List.mem_cons_self kv gs)
    rcases List.nodup_cons.mp hnd with ⟨hkv, hnd'⟩
    have hfreekv := hfree kv (List.mem_cons_self kv gs)
    cases hfc : fc gdf with
    | none =>
      have hsel : GroupBy.select gdf (.callable fc) =
          .error (.typeError "selection condition expected to return a boolean") := by
        simp [GroupBy.select, hfc]
      have hstep' : groupbySelectStep all (.callable fc) sel kv =
          .error (.typeError "selection condition expected to return a boolean") := by
        unfold groupbySelectStep
        rw [hget]
        show (do
          let keep ← GroupBy.select gdf (GroupBy.Having.callable fc)
          if keep then
            match sel.add kv.1 gdf.index with
            | (s', none) => Except.ok s'
            | (_, some e) => .error e
          else
            .ok sel) = _
        rw [hsel]
        rfl
      rw [List.foldlM_cons, hstep']
      rfl
    | some b =>
      have hsel : GroupBy.select gdf (.callable fc) = .ok b := by
        simp [GroupBy.select, hfc]
      have hex' : ∃ kv' ∈ gs,
          all.onGroup kv'.1 (fun gdf => (fc gdf).isSome) = false := by
        rcases hex with ⟨kv', hkv', hfalse⟩
        rcases List.mem_cons.mp hkv' with heq | htl
        · subst heq
          unfold DataFrameGrouping.onGroup at hfalse
          rw [hget] at hfalse
          simp [hfc] at hfalse
        · exact ⟨kv', htl, hfalse⟩
      cases b with
      | false =>
        have hstep' : groupbySelectStep all (.callable fc) sel kv = .ok sel := by
          rw [groupbySelectStep_eq all (.callable fc) sel kv gdf false hget hsel hfreekv]
          simp
        rw [List.foldlM_cons, hstep']
        have htail := ih sel (fun kv' h => hok kv' (List.mem_cons_of_mem _ h))
          hnd' (fun kv' h => hfree kv' (List.mem_cons_of_mem _ h)) hex'
        simpa [bind, Except.bind] using htail
      | true =>
        have hstep' : groupbySelectStep all (.callable fc) sel kv =
            .ok ⟨sel.df, sel.groups ++ [(kv.1, gdf.index)]⟩ := by
          rw [groupbySelectStep_eq all (.callable fc) sel kv gdf true hget hsel hfreekv]
          simp
        have hfree' : ∀ kv' ∈ gs,
            (sel.groups ++ [(kv.1, gdf.index)]).lookup kv'.1 = none := by
          intro kv' h
          rw [lookup_append_right _ (hfree kv' (List.mem_cons_of_mem _ h))]
          have hne : kv'.1 ≠ kv.1 := by
            intro heq
            have hmm : kv'.1 ∈ List.map (fun kv => kv.1) gs :=
              List.mem_map_of_mem (fun kv => kv.1) h
            rw [heq] at hmm
            exact hkv hmm
          simp [List.lookup, beq_false_of_ne hne,
            beq_false_of_ne (fun hk : kv.1 = kv'.1 => hne hk.symm)]
        have htail := ih ⟨sel.df, sel.groups ++ [(kv.1, gdf.index)]⟩
          (fun kv' h => hok kv' (List.mem_cons_of_mem _ h)) hnd' hfree' hex'
        rw [List.foldlM_cons, hstep']
        show gs.foldlM (groupbySelectStep all (.callable fc))
          ⟨sel.df, sel.groups ++ [(kv.1, gdf.index)]⟩ = _
        rw [htail]

theorem map_fst_filterMap_eq_filter {gs : List (Value × List Int)}
    (ke : Value × List Int → Option (Value × List Int))
    (condB : Value × List Int → Bool)
    (h : ∀ kv ∈ gs, (∃ rsx, ke kv = some (kv.1, rsx) ∧ condB kv = true) ∨
                    (ke kv = none ∧ condB kv = false)) :
    (gs.filterMap ke).map (fun kv => kv.1) =
      (gs.filter condB).map (fun kv => kv.1) := by
  induction gs with
  | nil => rfl
  | cons kv gs ih =>
    have ihtail := ih (fun kv' h' => h kv' (List.mem_cons_of_mem _ h'))
    rcases h kv (List.mem_cons_self kv gs) with ⟨rsx, hke, hcond⟩ | ⟨hke, hcond⟩
    · rw [List.filterMap_cons, hke, List.filter_cons, hcond]
      simpa using ihtail
    · rw [List.filterMap_cons, hke, List.filter_cons, hcond]
      simpa using ihtail

/-- The kept entry of a group under `having = N` is decided exactly by the
row count of the stored row list (under well-formedness). -/
theorem keptEntry_int (all : DataFrameGrouping) (hwf : all.WellFormed)
    (N : Int) {kv : Value × List Int} (hmem : kv ∈ all.groups) :
    (∃ rsx, keptEntry all (.int N) kv = some (kv.1, rsx) ∧
      decide ((kv.2.length : Int) = N) = true) ∨
    (keptEntry all (.int N) kv = none ∧
      decide ((kv.2.length : Int) = N) = false) := by
  obtain ⟨gdf, hget, hnr, _⟩ := get_ok_of_wf all hwf hmem
  have hsel : GroupBy.select gdf (.int N) =
      .ok (decide ((kv.2.length : Int) = N)) := by
    simp [GroupBy.select, hnr]
  by_cases hN : (kv.2.length : Int) = N
  · left
    refine ⟨gdf.index, ?_, by simp [hN]⟩
    simp [keptEntry, hget, hsel, hN]
  · right
    refine ⟨?_, by simp [hN]⟩
    simp [keptEntry, hget, hsel, hN]

/-- **C4.**  For a well-formed full grouping: `having = N` (an integer) keeps
exactly the groups whose row count equals `N`; `having = callable` keeps
exactly the groups on which the callable returns `True`, provided it returns
a boolean on every group; and whenever the callable returns a non-boolean for
some group, `groupby` raises the `TypeError` contract violation instead of
coercing. -/
theorem groupby_having_semantics (df : DataFrame) (f : List Scalar → Value)
    (all : DataFrameGrouping)
    (hmap : GroupBy.mapGroups df f = .ok all)
    (hwf : all.WellFormed) :
    (∀ N : Int, ∃ sel, groupby df f (.int N) = .ok sel ∧
      sel.groups.map (fun kv => kv.1) =
        (all.groups.filter (fun kv =>
          decide ((kv.2.length : Int) = N))).map (fun kv => kv.1)) ∧
    (∀ fc : DataFrame → Option Bool,
      (∀ kv ∈ all.groups,
        all.onGroup kv.1 (fun gdf => (fc gdf).isSome) = true) →
      ∃ sel, groupby df f (.callable fc) = .ok sel ∧
        sel.groups.map (fun kv => kv.1) =
          (all.groups.filter (fun kv =>
            all.onGroup kv.1 (fun gdf => fc gdf == some true))).map
              (fun kv => kv.1)) ∧
    (∀ fc : DataFrame → Option Bool,
      (∃ kv ∈ all.groups,
        all.onGroup kv.1 (fun gdf => (fc gdf).isSome) = false) →
      groupby df f (.callable fc) =
        .error (.typeError "selection condition expected to return a boolean")) := by
  have hfree0 : ∀ kv ∈ all.groups,
      (⟨df, []⟩ : DataFrameGrouping).groups.lookup kv.1 = none := by
    intro kv _
    rfl
  refine ⟨?_, ?_, ?_⟩
  · intro N
    have hok : ∀ kv ∈ all.groups, ∃ gdf keep,
        all.get kv.1 = .ok (some gdf) ∧
        GroupBy.select gdf (.int N) = .ok keep := by
      intro kv hmem
      obtain ⟨gdf, hget, _, _⟩ := get_ok_of_wf all hwf hmem
      exact ⟨gdf, _, hget, rfl⟩
    have hloop := groupby_loop_char all (.int N) all.groups ⟨df, []⟩
      hok hwf.1 hfree0
    refine ⟨⟨df, all.groups.filterMap (keptEntry all (.int N))⟩, ?_, ?_⟩
    · unfold groupby
      rw [hmap]
      show all.groups.foldlM (groupbySelectStep all (.int N)) ⟨df, []⟩ = _
      rw [hloop]
      rfl
    · exact map_fst_filterMap_eq_filter _ _
        (fun kv hmem => keptEntry_int all hwf N hmem)
  · intro fc hbool
    have hok : ∀ kv ∈ all.groups, ∃ gdf keep,
        all.get kv.1 = .ok (some gdf) ∧
        GroupBy.select gdf (.callable fc) = .ok keep := by
      intro kv hmem
      obtain ⟨gdf, hget, _, _⟩ := get_ok_of_wf all hwf hmem
      have hb := hbool kv hmem
      unfold DataFrameGrouping.onGroup at hb
      rw [hget] at hb
      obtain ⟨b, hfc⟩ := Option.isSome_iff_exists.mp (by simpa using hb)
      exact ⟨gdf, b, hget, by simp [GroupBy.select, hfc]⟩
    have hloop := groupby_loop_char all (.callable fc) all.groups ⟨df, []⟩
      hok hwf.1 hfree0
    refine ⟨⟨df, all.groups.filterMap (keptEntry all (.callable fc))⟩, ?_, ?_⟩
    · unfold groupby
      rw [hmap]
      show all.groups.foldlM (groupbySelectStep all (.callable fc)) ⟨df, []⟩ = _
      rw [hloop]
      rfl
    · refine map_fst_filterMap_eq_filter _ _ ?_
      intro kv hmem
      obtain ⟨gdf, hget, _, _⟩ := get_ok_of_wf all hwf hmem
      have hb := hbool kv hmem
      unfold DataFrameGrouping.onGroup at hb
      rw [hget] at hb
      obtain ⟨b, hfc⟩ := Option.isSome_iff_exists.mp (by simpa using hb)
      have hsel : GroupBy.select gdf (.callable fc) = .ok b := by
        simp [GroupBy.select, hfc]
      cases b with
      | true =>
        left
        refine ⟨gdf.index, ?_, ?_⟩
        · simp [keptEntry, hget, hsel]
        · unfold DataFrameGrouping.onGroup
          rw [hget]
          simp [hfc]
      | false =>
        right
        refine ⟨?_, ?_⟩
        · simp [keptEntry, hget, hsel]
        · unfold DataFrameGrouping.onGroup
          rw [hget]
          simp [hfc]
  · intro fc hex
    have hok : ∀ kv ∈ all.groups, ∃ gdf, all.get kv.1 = .ok (some gdf) := by
      intro kv hmem
      obtain ⟨gdf, hget, _, _⟩ := get_ok_of_wf all hwf hmem
      exact ⟨gdf, hget⟩
    have hloop := groupby_loop_error all fc all.groups ⟨df, []⟩
      hok hwf.1 hfree0 hex
    unfold groupby
    rw [hmap]
    show all.groups.foldlM (groupbySelectStep all (.callable fc)) ⟨df, []⟩ = _
    rw [hloop]

/-- Witness for C4 at a three-row frame grouped on its single column. -/
theorem groupby_having_semantics_witness :
    (GroupBy.mapGroups exHavingFrame colAKey = .ok exHavingAll ∧
     exHavingAll.WellFormed) ∧
    ((∀ N : Int, ∃ sel, groupby exHavingFrame colAKey (.int N) = .ok sel ∧
      sel.groups.map (fun kv => kv.1) =
        (exHavingAll.groups.filter (fun kv =>
          decide ((kv.2.length : Int) = N))).map (fun kv => kv.1)) ∧
    (∀ fc : DataFrame → Option Bool,
      (∀ kv ∈ exHavingAll.groups,
        exHavingAll.onGroup kv.1 (fun gdf => (fc gdf).isSome) = true) →
      ∃ sel, groupby exHavingFrame colAKey (.callable fc) = .ok sel ∧
        sel.groups.map (fun kv => kv.1) =
          (exHavingAll.groups.filter (fun kv =>
            exHavingAll.onGroup kv.1 (fun gdf => fc gdf == some true))).map
              (fun kv => kv.1)) ∧
    (∀ fc : DataFrame → Option Bool,
      (∃ kv ∈ exHavingAll.groups,
        exHavingAll.onGroup kv.1 (fun gdf => (fc gdf).isSome) = false) →
      groupby exHavingFrame colAKey (.callable fc) =
        .error (.typeError "selection condition expected to return a boolean"))) :=
  ⟨⟨by decide, by decide⟩,
    groupby_having_semantics exHavingFrame colAKey exHavingAll
      (by decide) (by decide)⟩

/-! ## C9 — non-int, non-callable `having` silently yields an empty grouping -/

/-- **C9.**  When `having` is neither `None`, an `int` nor a callable (e.g. a
string), no error is raised: `GroupBy.select` falls through to `False` for
every group, so `groupby` returns an empty grouping over the original
frame. -/
theorem groupby_having_other_empty (df : DataFrame) (f : List Scalar → Value)
    (all : DataFrameGrouping)
    (hmap : GroupBy.mapGroups df f = .ok all)
    (hwf : all.WellFormed) :
    groupby df f .other = .ok ⟨df, []⟩ ∧
    (∀ gdf : DataFrame, GroupBy.select gdf .other = .ok false) := by
  have hfree0 : ∀ kv ∈ all.groups,
      (⟨df, []⟩ : DataFrameGrouping).groups.lookup kv.1 = none := by
    intro kv _
    rfl
  have hok : ∀ kv ∈ all.groups, ∃ gdf keep,
      all.get kv.1 = .ok (some gdf) ∧
      GroupBy.select gdf .other = .ok keep := by
    intro kv hmem
    obtain ⟨gdf, hget, _, _⟩ := get_ok_of_wf all hwf hmem
    exact ⟨gdf, false, hget, rfl⟩
  have hloop := groupby_loop_char all .other all.groups ⟨df, []⟩
    hok hwf.1 hfree0
  have hkept : ∀ kv ∈ all.groups, keptEntry all .other kv = none := by
    intro kv hmem
    obtain ⟨gdf, hget, _, _⟩ := get_ok_of_wf all hwf hmem
    simp [keptEntry, hget, GroupBy.select]
  refine ⟨?_, fun gdf => rfl⟩
  unfold groupby
  rw [hmap]
  show all.groups.foldlM (groupbySelectStep all .other) ⟨df, []⟩ = _
  rw [hloop]
  have : all.groups.filterMap (keptEntry all .other) = [] := by
    rw [List.filterMap_eq_nil_iff]
    exact fun kv hmem => hkept kv hmem
  rw [this]
  rfl

/-- Witness for C9 at the three-row `having` example frame. -/
theorem groupby_having_other_empty_witness :
    (GroupBy.mapGroups exHavingFrame colAKey = .ok exHavingAll ∧
     exHavingAll.WellFormed) ∧
    (groupby exHavingFrame colAKey .other = .ok ⟨exHavingFrame, []⟩ ∧
     (∀ gdf : DataFrame, GroupBy.select gdf .other = .ok false)) :=
  ⟨⟨by decide, by decide⟩,
    groupby_having_other_empty exHavingFrame colAKey exHavingAll
      (by decide) (by decide)⟩

/-! ## C10 — later rows overwrite earlier entries in `Mapping.transform` -/

theorem pyIdx_natCast (n c : Nat) (h : c < n) : pyIdx n (c : Int) = some c := by
  unfold pyIdx
  have h1 : ¬ ((c : Int) < 0) := by simp
  have h2 : (0 : Int) ≤ (c : Int) ∧ (c : Int) < (n : Int) :=
    ⟨by simp, by exact_mod_cast h⟩
  show (if 0 ≤ (if (c : Int) < 0 then (n : Int) + c else (c : Int)) ∧
      (if (c : Int) < 0 then (n : Int) + c else (c : Int)) < (n : Int)
    then some (if (c : Int) < 0 then (n : Int) + c else (c : Int)).toNat
    else none) = some c
  rw [if_neg h1, if_pos h2, Int.toNat_natCast]

theorem pyGet_natCast_ok {α : Type} (l : List α) (c : Nat) (d : α)
    (h : c < l.length) : pyGet l (c : Int) = .ok (l.getD c d) := by
  unfold pyGet
  rw [pyIdx_natCast l.length c h]
  show (match l[c]? with
    | some a => Except.ok a
    | none => Except.error (PyError.indexError "list index out of range")) = _
  rw [List.getElem?_eq_getElem h]
  rw [List.getD_eq_getElem?_getD, List.getElem?_eq_getElem h]
  rfl

theorem mapM_pyGet_ok {α : Type} (row : List α) (d : α) :
    ∀ (cs : List Nat), (∀ c ∈ cs, c < row.length) →
    cs.mapM (fun c : Nat => pyGet row (c : Int)) =
      .ok (cs.map (fun c => row.getD c d)) := by
  intro cs
  induction cs with
  | nil =>
    intro _
    rfl
  | cons c cs ih =>
    intro hval
    rw [List.mapM_cons, pyGet_natCast_ok row c d (hval c (List.mem_cons_self c cs))]
    simp only [bind, Except.bind]
    rw [ih (fun c' h => hval c' (List.mem_cons_of_mem _ h))]
    rfl

theorem foldlM_assocSet_char {β : Type} (comp : List Scalar → Except PyError β)
    (wrap : β → Value) (f : List Scalar → Value) (keyP : List Scalar → Value)
    (rows : List (List Scalar))
    (hk : ∀ row ∈ rows, ∃ b, comp row = .ok b ∧ wrap b = keyP row) :
    ∀ m0, rows.foldlM (fun m row => do
        let v ← comp row
        .ok (assocSet m (wrap v) (f row))) m0 =
      .ok (rows.foldl (fun m row => assocSet m (keyP row) (f row)) m0) := by
  induction rows with
  | nil =>
    intro m0
    rw [List.foldlM_nil, List.foldl_nil]
    rfl
  | cons row rows ih =>
    intro m0
    obtain ⟨b, hb, hw⟩ := hk row (List.mem_cons_self row rows)
    rw [List.foldlM_cons, List.foldl_cons, hb]
    simp only [bind, Except.bind]
    rw [hw]
    exact ih (fun r h => hk r (List.mem_cons_of_mem _ h)) _

theorem buildMapping_ok (df : DataFrame) (colidxs : List Nat)
    (f : List Scalar → Value)
    (hval : ∀ row ∈ df.rows, ∀ c ∈ colidxs, c < row.length) :
    Mapping.buildMapping df colidxs f =
      .ok (df.rows.foldl (fun m row =>
        assocSet m (Mapping.rowKey colidxs row) (f row)) []) := by
  match colidxs, hval with
  | [colidx], hval =>
    exact foldlM_assocSet_char (fun row => pyGet row (colidx : Int))
      Value.scalar f (Mapping.rowKey [colidx]) df.rows
      (fun row h => ⟨row.getD colidx default,
        pyGet_natCast_ok row colidx default
          (hval row h colidx (List.mem_cons_self colidx [])), rfl⟩) []
  | [], hval =>
    exact foldlM_assocSet_char (fun row => ([] : List Nat).mapM
        (fun c : Nat => pyGet row (c : Int)))
      Value.tuple f (Mapping.rowKey []) df.rows
      (fun row h => ⟨[], rfl, rfl⟩) []
  | c1 :: c2 :: crest, hval =>
    exact foldlM_assocSet_char (fun row => (c1 :: c2 :: crest).mapM
        (fun c : Nat => pyGet row (c : Int)))
      Value.tuple f (Mapping.rowKey (c1 :: c2 :: crest)) df.rows
      (fun row h => ⟨(c1 :: c2 :: crest).map (fun c => row.getD c default),
        mapM_pyGet_ok row default _ (hval row h), rfl⟩) []

theorem foldl_assocSet_lookup (f : List Scalar → Value)
    (keyP : List Scalar → Value) :
    ∀ (rows : List (List Scalar)) (m0 : List (Value × Value)) (x : Value),
    (rows.foldl (fun m row => assocSet m (keyP row) (f row)) m0).lookup x =
      (match (rows.filter (fun r => keyP r = x)).getLast? with
       | some r => some (f r)
       | none => m0.lookup x) := by
  intro rows
  induction rows with
  | nil =>
    intro m0 x
    simp
  | cons row rows ih =>
    intro m0 x
    rw [List.foldl_cons, ih, List.filter_cons]
    by_cases hkx : keyP row = x
    · rw [if_pos (by simpa using hkx)]
      cases hlast : (rows.filter (fun r => decide (keyP r = x))).getLast? with
      | some r' =>
        cases hf : rows.filter (fun r => decide (keyP r = x)) with
        | nil =>
          rw [hf] at hlast
          simp at hlast
        | cons a l =>
          rw [hf] at hlast
          rw [List.getLast?_cons_cons, hlast]
      | none =>
        have hnil : rows.filter (fun r => decide (keyP r = x)) = [] :=
          List.getLast?_eq_none_iff.mp hlast
        rw [hnil]
        show (assocSet m0 (keyP row) (f row)).lookup x = _
        rw [hkx, lookup_assocSet_self]
        rfl
    · rw [if_neg (by simpa using hkx)]
      cases hlast : (rows.filter (fun r => decide (keyP r = x))).getLast? with
      | some r' => rfl
      | none =>
        show (assocSet m0 (keyP row) (f row)).lookup x = _
        rw [lookup_assocSet_ne _ _ (fun h => hkx h.symm)]

theorem map_fst_assocSet_nodup {α β : Type} [DecidableEq α] (m : List (α × β))
    (k : α) (v : β) (h : (m.map (fun kv => kv.1)).Nodup) :
    ((assocSet m k v).map (fun kv => kv.1)).Nodup := by
  unfold assocSet
  by_cases hs : (m.lookup k).isSome
  · rw [if_pos hs, map_fst_assocUpdate]
    exact h
  · rw [if_neg hs]
    have hk : k ∉ m.map (fun kv => kv.1) := by
      rw [← lookup_isSome_iff_mem_keys]
      simpa using hs
    rw [List.map_append]
    refine List.nodup_append.mpr ⟨h, by simp, ?_⟩
    intro a ha hmem
    simp only [List.map_cons, List.map_nil, List.mem_singleton] at hmem
    subst hmem
    exact hk ha

theorem foldl_assocSet_keys_nodup (f keyP : List Scalar → Value) :
    ∀ (rows : List (List Scalar)) (m0 : List (Value × Value)),
    ((m0.map (fun kv => kv.1)).Nodup) →
    (((rows.foldl (fun m row => assocSet m (keyP row) (f row)) m0)).map
      (fun kv => kv.1)).Nodup := by
  intro rows
  induction rows with
  | nil =>
    intro m0 h
    exact h
  | cons row rows ih =>
    intro m0 h
    rw [List.foldl_cons]
    exact ih _ (map_fst_assocSet_nodup m0 _ _ h)

/-- **C10.**  In `Mapping.transform`, rows with equal values in the source
column(s) collapse to a single entry: the mapping dict has duplicate-free
keys, each key's stored value is the update-function result for the **last**
input row with that key, and the materialized data frame has exactly the
mapping's entries as rows. -/
theorem mapping_last_row_wins (df : DataFrame) (cols : List ColRef)
    (names : Option (List String)) (f : List Scalar → Value)
    (colidxs : List Nat)
    (hsc : select_clause df.columns cols = .ok colidxs)
    (hvalid : ∀ row ∈ df.rows, ∀ c ∈ colidxs, c < row.length) :
    ∃ m, Mapping.buildMapping df colidxs f = .ok m ∧
      (m.map (fun kv => kv.1)).Nodup ∧
      (∀ row ∈ df.rows, ∃ lr,
        (df.rows.filter (fun r =>
          Mapping.rowKey colidxs r = Mapping.rowKey colidxs row)).getLast? =
            some lr ∧
        m.lookup (Mapping.rowKey colidxs row) = some (f lr) ∧
        (m.map (fun kv => kv.1)).count (Mapping.rowKey colidxs row) = 1) ∧
      (df.rows ≠ [] → ∃ out, Mapping.transform df cols names f = .ok out ∧
        out.rows = m.map Mapping.encodeEntry) := by
  set m := df.rows.foldl (fun m row =>
    assocSet m (Mapping.rowKey colidxs row) (f row)) [] with hmdef
  have hm : Mapping.buildMapping df colidxs f = .ok m :=
    buildMapping_ok df colidxs f hvalid
  have hnd : (m.map (fun kv => kv.1)).Nodup :=
    foldl_assocSet_keys_nodup f (Mapping.rowKey colidxs) df.rows [] (by simp)
  have hlook : ∀ row ∈ df.rows, ∃ lr,
      (df.rows.filter (fun r =>
        Mapping.rowKey colidxs r = Mapping.rowKey colidxs row)).getLast? =
          some lr ∧
      m.lookup (Mapping.rowKey colidxs row) = some (f lr) ∧
      (m.map (fun kv => kv.1)).count (Mapping.rowKey colidxs row) = 1 := by
    intro row hrow
    have hmemf : row ∈ df.rows.filter (fun r =>
        Mapping.rowKey colidxs r = Mapping.rowKey colidxs row) :=
      List.mem_filter.mpr ⟨hrow, by simp⟩
    have hne : df.rows.filter (fun r =>
        Mapping.rowKey colidxs r = Mapping.rowKey colidxs row) ≠ [] :=
      List.ne_nil_of_mem hmemf
    obtain ⟨lr, hlr⟩ := Option.isSome_iff_exists.mp
      (List.getLast?_isSome.mpr hne)
    refine ⟨lr, hlr, ?_, ?_⟩
    · rw [hmdef, foldl_assocSet_lookup f (Mapping.rowKey colidxs) df.rows []
        (Mapping.rowKey colidxs row), hlr]
    · have hsome : (m.lookup (Mapping.rowKey colidxs row)).isSome := by
        rw [hmdef, foldl_assocSet_lookup f (Mapping.rowKey colidxs) df.rows []
          (Mapping.rowKey colidxs row), hlr]
        rfl
      exact List.count_eq_one_of_mem hnd
        ((lookup_isSome_iff_mem_keys m _).mp hsome)
  refine ⟨m, hm, hnd, hlook, ?_⟩
  intro hrows
  unfold Mapping.transform
  cases names with
  | some ns =>
    rw [hsc]
    simp only [bind, Except.bind, hm, pure, Except.pure]
    exact ⟨_, rfl, rfl⟩
  | none =>
    have hmne : m ≠ [] := by
      cases hr : df.rows with
      | nil => exact absurd hr hrows
      | cons r0 rest =>
        obtain ⟨lr, _, hlk, _⟩ := hlook r0 (by rw [hr]; exact List.mem_cons_self r0 rest)
        intro hmnil
        rw [hmnil] at hlk
        cases hlk
    have hdata : m.map Mapping.encodeEntry ≠ [] := by
      intro h
      exact hmne (List.map_eq_nil_iff.mp h)
    obtain ⟨lrow, hlrow⟩ := Option.isSome_iff_exists.mp
      (List.getLast?_isSome.mpr hdata)
    rw [hsc]
    simp only [bind, Except.bind, hm, hlrow, pure, Except.pure]
    exact ⟨_, rfl, rfl⟩

/-- Witness for C10 at a frame whose first and third row share the source
value `1` in column `A`: the mapping keeps one entry for `1`, bound to the
third row's target. -/
theorem mapping_last_row_wins_witness :
    (select_clause exMapFrame.columns [ColRef.name "A"] = .ok [0] ∧
     (∀ row ∈ exMapFrame.rows, ∀ c ∈ [0], c < row.length)) ∧
    (∃ m, Mapping.buildMapping exMapFrame [0] colBVal = .ok m ∧
      (m.map (fun kv => kv.1)).Nodup ∧
      (∀ row ∈ exMapFrame.rows, ∃ lr,
        (exMapFrame.rows.filter (fun r =>
          Mapping.rowKey [0] r = Mapping.rowKey [0] row)).getLast? = some lr ∧
        m.lookup (Mapping.rowKey [0] row) = some (colBVal lr) ∧
        (m.map (fun kv => kv.1)).count (Mapping.rowKey [0] row) = 1) ∧
      (exMapFrame.rows ≠ [] → ∃ out,
        Mapping.transform exMapFrame [ColRef.name "A"] none colBVal = .ok out ∧
        out.rows = m.map Mapping.encodeEntry)) :=
  ⟨⟨by decide, by decide⟩,
    mapping_last_row_wins exMapFrame [ColRef.name "A"] none colBVal [0]
      (by decide) (by decide)⟩

end OpenClean
